import Mathlib

/-!
Verification of the card-composition and delivery code of the PyBot Teams
notification service.

The Python sources are shallowly embedded: JSON documents become the mutual
inductive `Json`/`JArr`/`JObj` (a Python dict is an association list of string
keys in insertion order, as `json.loads`/`json.dumps` preserve), Python lists
of nodes become `List Json`, and the network / filesystem effects of the
delivery layer are abstracted into explicit outcome parameters.  Recursions
that are not structural in Python (string scanning, heap walks) take an
explicit fuel argument and are proved fuel-insensitive where their equations
are needed.
-/

/- ### JSON documents (mutual inductive so that all recursions are structural
and reduce inside the kernel) -/

mutual
inductive Json where
  | str (s : String)
  | num (n : Int)
  | bool (b : Bool)
  | null
  | arr (xs : JArr)
  | obj (fs : JObj)
deriving DecidableEq
inductive JArr where
  | nil
  | cons (hd : Json) (tl : JArr)
deriving DecidableEq
inductive JObj where
  | nil
  | cons (k : String) (v : Json) (tl : JObj)
deriving DecidableEq
end

/-- Children list of an array node, as a Lean list. -/
def JArr.toList : JArr → List Json
  | .nil => []
  | .cons hd tl => hd :: tl.toList

/-- Build an array node from a Lean list. -/
def JArr.ofList : List Json → JArr
  | [] => .nil
  | x :: xs => .cons x (JArr.ofList xs)

/-- Fields of an object node, as a Lean association list (insertion order). -/
def JObj.toList : JObj → List (String × Json)
  | .nil => []
  | .cons k v tl => (k, v) :: tl.toList

/-- Build an object node from a Lean association list. -/
def JObj.ofList : List (String × Json) → JObj
  | [] => .nil
  | (k, v) :: fs => .cons k v (JObj.ofList fs)

/-- `dict.get(key)`: first binding of `key`, `none` when the key is absent. -/
def JObj.get : JObj → String → Option Json
  | .nil, _ => none
  | .cons k v tl, key => if k = key then some v else tl.get key

/-- `key in dict`. -/
def JObj.hasKey (fs : JObj) (key : String) : Bool :=
  (fs.get key).isSome

/-- `dict[key] = value`: replace the value of the first binding of `key`,
append a new binding when the key is absent (Python dict update). -/
def JObj.set : JObj → String → Json → JObj
  | .nil, key, w => .cons key w .nil
  | .cons k v tl, key, w =>
    if k = key then .cons k w tl else .cons k v (tl.set key w)

/-- `obj.get(key)` on an arbitrary value: only dicts answer. -/
def Json.getKey : Json → String → Option Json
  | .obj fs, key => fs.get key
  | _, _ => none

/-- `obj.get("type")` compared against a string tag. -/
def Json.hasType (j : Json) (tag : String) : Bool :=
  j.getKey "type" = some (.str tag)

/- ### Python string primitives -/

/-- Decimal digit characters, as Python prints them. -/
def decDigit : Nat → Char
  | 0 => '0'
  | 1 => '1'
  | 2 => '2'
  | 3 => '3'
  | 4 => '4'
  | 5 => '5'
  | 6 => '6'
  | 7 => '7'
  | 8 => '8'
  | _ => '9'

/-- Numeric value of a decimal digit character. -/
def decDigitVal (c : Char) : Nat := c.toNat - 48

/-- Most-significant-first decimal digits of `n` (fuel-driven so the
definition is structural; `fuel > n` always suffices). -/
def decChars : Nat → Nat → List Char
  | 0, _ => []
  | fuel + 1, n => if n < 10 then [decDigit n] else decChars fuel (n / 10) ++ [decDigit (n % 10)]

/-- `str(n)` for a nonnegative Python int: decimal, no leading zeros. -/
def natToDec (n : Nat) : String := String.mk (decChars (n + 1) n)

/-- `str(n)` for a Python int. -/
def intToDec : Int → String
  | .ofNat n => natToDec n
  | .negSucc n => String.mk ('-' :: (natToDec (n + 1)).data)

/-- Is `needle` an initial run of `hay`? (helper for substring search). -/
def leadsList : List Char → List Char → Bool
  | [], _ => true
  | _ :: _, [] => false
  | a :: as, b :: bs => a = b && leadsList as bs

/-- Python `needle in hay` for character lists (contiguous substring). -/
def hasSubList (needle : List Char) : List Char → Bool
  | [] => leadsList needle []
  | c :: cs => leadsList needle (c :: cs) || hasSubList needle cs

/-- Python `needle in s` on strings. -/
def strContainsSub (needle s : String) : Bool :=
  hasSubList needle.data s.data

/-- Python `s.replace(old, new)` on character lists: leftmost-first,
non-overlapping, every occurrence.  Fuel-driven; `fuel ≥ |l|` suffices when
`old` is nonempty (all call sites use nonempty needles). -/
def replaceListGo (old new : List Char) : Nat → List Char → List Char
  | 0, l => l
  | fuel + 1, l =>
    if old ≠ [] ∧ leadsList old l then new ++ replaceListGo old new fuel (l.drop old.length)
    else
      match l with
      | [] => []
      | c :: cs => c :: replaceListGo old new fuel cs

/-- Python `s.replace(old, new)` on strings. -/
def pyReplace (old new s : String) : String :=
  String.mk (replaceListGo old.data new.data s.data.length s.data)

/-- Python whitespace test used by `str.strip()`. -/
def isPySpace (c : Char) : Bool :=
  c = ' ' || c = '\t' || c = '\n' || c = '\r'

/-- Python `s.strip()`. -/
def pyStrip (s : String) : String :=
  String.mk (((s.data.dropWhile isPySpace).reverse.dropWhile isPySpace).reverse)

/-- Python `s.lower()` (ASCII-relevant part). -/
def pyLower (s : String) : String :=
  String.mk (s.data.map Char.toLower)

/- ### `str(value)` rendering of JSON values (only string/int/bool/None
renderings are ever observed by the claims; containers get a repr-like
rendering). -/

def openBraceChar : Char := Char.ofNat 123
def closeBraceChar : Char := Char.ofNat 125

mutual
/-- Python `str(v)` of a decoded JSON value. -/
def Json.pyStr : Json → String
  | .str s => s
  | .num n => intToDec n
  | .bool b => if b then "True" else "False"
  | .null => "None"
  | .arr xs => "[" ++ xs.pyStrElems ++ "]"
  | .obj fs => String.mk [openBraceChar] ++ fs.pyStrFields ++ String.mk [closeBraceChar]
def JArr.pyStrElems : JArr → String
  | .nil => ""
  | .cons hd .nil => hd.pyStr
  | .cons hd tl => hd.pyStr ++ ", " ++ tl.pyStrElems
def JObj.pyStrFields : JObj → String
  | .nil => ""
  | .cons k v .nil => "'" ++ k ++ "': " ++ v.pyStr
  | .cons k v tl => "'" ++ k ++ "': " ++ v.pyStr ++ ", " ++ tl.pyStrFields
end

/- ### api/cards/utils.py : get_icon_for_task_type -/

/-- `get_icon_for_task_type(task_type)`: the argument is `task.get('type')`,
so `none` (key absent) and `.null` both behave as Python `None`. -/
def get_icon_for_task_type (taskType : Option Json) : String :=
  match taskType with
  | none => "CheckmarkStarburst"
  | some .null => "CheckmarkStarburst"
  | some v =>
    let key := pyLower (pyStrip v.pyStr)
    let mapping : List (String × String) :=
      [("agreement", "CheckmarkStarburst"),
       ("vereinbarung", "CheckmarkStarburst"),
       ("decision", "Diamond"),
       ("decison", "Diamond"),
       ("decisonj", "Diamond"),
       ("entscheidung", "Diamond"),
       ("issue", "Info"),
       ("info", "Info")]
    match mapping.lookup key with
    | some icon => icon
    | none => "CheckmarkStarburst"

/- ### api/cards/tasks_assigned.py : icon stamping and row-toggle rewriting -/

mutual
/-- `_set_icons_in_subtree(obj, icon_name)`: rewrite the `name` of every
`Icon` node whose current name is one of the three defaults, recursing into
every value.  The Python code mutates `name` first and then visits every
value; since the written value `.str icon` is an atom the visitor leaves
unchanged, this equals visiting the original values and then writing. -/
def Json.setIcons (icon : String) : Json → Json
  | .obj fs =>
    let processed := fs.setIcons icon
    if (fs.get "type" = some (.str "Icon")) ∧ fs.hasKey "name" ∧
        (fs.get "name" = some (.str "CheckmarkStarburst") ∨
         fs.get "name" = some (.str "Diamond") ∨
         fs.get "name" = some (.str "Info")) then
      .obj (processed.set "name" (.str icon))
    else .obj processed
  | .arr xs => .arr (xs.setIcons icon)
  | other => other
def JArr.setIcons (icon : String) : JArr → JArr
  | .nil => .nil
  | .cons hd tl => .cons (hd.setIcons icon) (tl.setIcons icon)
def JObj.setIcons (icon : String) : JObj → JObj
  | .nil => .nil
  | .cons k v tl => .cons k (v.setIcons icon) (tl.setIcons icon)
end

/-- The single-target list `[{"elementId": details_id}]` written by
`_fix_row_toggle_action`. -/
def singleTargetList (detailsId : String) : Json :=
  .arr (.cons (.obj (.cons "elementId" (.str detailsId) .nil)) .nil)

mutual
/-- `_fix_row_toggle_action(row_container, details_id)`: wherever a dict has a
`selectAction` whose value is a dict of type `Action.ToggleVisibility`, its
`targetElements` is overwritten with the single entry for `details_id`;
the visit then recurses into every value.  The Python code writes
`targetElements` before visiting; the visitor treats fields independently and
maps the written single-target list to itself, so writing after the visit
yields the same tree. -/
def Json.fixRowToggle (detailsId : String) : Json → Json
  | .obj fs =>
    let processed := fs.fixRowToggle detailsId
    match fs.get "selectAction" with
    | some (.obj sa) =>
      if sa.get "type" = some (.str "Action.ToggleVisibility") then
        match processed.get "selectAction" with
        | some (.obj sa2) =>
          .obj (processed.set "selectAction"
            (.obj (sa2.set "targetElements" (singleTargetList detailsId))))
        | _ => .obj processed
      else .obj processed
    | _ => .obj processed
  | .arr xs => .arr (xs.fixRowToggle detailsId)
  | other => other
def JArr.fixRowToggle (detailsId : String) : JArr → JArr
  | .nil => .nil
  | .cons hd tl => .cons (hd.fixRowToggle detailsId) (tl.fixRowToggle detailsId)
def JObj.fixRowToggle (detailsId : String) : JObj → JObj
  | .nil => .nil
  | .cons k v tl => .cons k (v.fixRowToggle detailsId) (tl.fixRowToggle detailsId)
end

mutual
/-- `json.loads(json.dumps(node).replace(a, b))` acts as a string replacement
on every string literal of the serialization, i.e. on every key and every
string value of the tree (the needles used never span a JSON delimiter). -/
def Json.mapStrKV (f : String → String) : Json → Json
  | .str s => .str (f s)
  | .num n => .num n
  | .bool b => .bool b
  | .null => .null
  | .arr xs => .arr (xs.mapStrKV f)
  | .obj fs => .obj (fs.mapStrKV f)
def JArr.mapStrKV (f : String → String) : JArr → JArr
  | .nil => .nil
  | .cons hd tl => .cons (hd.mapStrKV f) (tl.mapStrKV f)
def JObj.mapStrKV (f : String → String) : JObj → JObj
  | .nil => .nil
  | .cons k v tl => .cons (f k) (v.mapStrKV f) (tl.mapStrKV f)
end

/-- The identifier `f"details{i+1}"` generated for record position `i`. -/
def detailsIdStr (i : Nat) : String := "details" ++ natToDec (i + 1)

/-- The two serialized-subtree rewrites applied to record position `i`:
`"tasks[0]" -> f"tasks[{i}]"` then `"details1" -> f"details{i+1}"`. -/
def transformSection (node : Json) (i : Nat) : Json :=
  node.mapStrKV (fun s =>
    pyReplace "details1" (detailsIdStr i)
      (pyReplace "tasks[0]" ("tasks[" ++ natToDec i ++ "]") s))

/-- The extraction result dict `{table_header, task_row_template,
task_details_template}` (cf. `extract_task_section_template`). -/
structure TaskTemplate where
  table_header : Option Json
  task_row_template : Option Json
  task_details_template : Option Json

/-- The per-record icon stamping: `get_icon_for_task_type(tasks[i].get('type'))`
inside a `try` that swallows the `AttributeError` of a non-dict record. -/
def stampIcon (tasks : List Json) (i : Nat) (node : Json) : Json :=
  match tasks.get? i with
  | some (.obj fs) => node.setIcons (get_icon_for_task_type (fs.get "type"))
  | _ => node

/-- `generate_task_sections(task_template, task_count, tasks)` with
`task_count = len(tasks)` as at the call site.  The `json.loads` round trips
cannot fail for the needles used, so the `JSONDecodeError` branches are dead. -/
def generate_task_sections (taskTemplate : Option TaskTemplate) (tasks : List Json) :
    List Json :=
  match taskTemplate with
  | none => []
  | some tpl =>
    let headerPart : List Json :=
      match tpl.table_header with
      | some h => [h]
      | none => []
    match tpl.task_row_template with
    | none => headerPart
    | some rowT =>
      headerPart ++ (List.range tasks.length).flatMap (fun i =>
        let row := stampIcon tasks i (transformSection rowT i)
        let row := row.fixRowToggle (detailsIdStr i)
        match tpl.task_details_template with
        | none => [row]
        | some dT => [row, stampIcon tasks i (transformSection dT i)])

/- ### api/cards/tasks_assigned.py : extract_task_section_template -/

mutual
/-- Does `str(node)` contain `needle`?  The needles used (`"tasks[0]"`,
`"{{tasks["`) contain no quote and cannot straddle a repr delimiter, so they
occur in the serialization iff they occur in some string key or value. -/
def Json.containsTok (needle : String) : Json → Bool
  | .str s => strContainsSub needle s
  | .arr xs => xs.containsTok needle
  | .obj fs => fs.containsTok needle
  | _ => false
def JArr.containsTok (needle : String) : JArr → Bool
  | .nil => false
  | .cons hd tl => hd.containsTok needle || tl.containsTok needle
def JObj.containsTok (needle : String) : JObj → Bool
  | .nil => false
  | .cons k v tl => strContainsSub needle k || v.containsTok needle || tl.containsTok needle
end

/-- The first-index placeholder needle `"{{tasks["`. -/
def tasksBraceNeedle : String := String.mk ['{', '{', 't', 'a', 's', 'k', 's', '[']

/-- The extractor's row predicate: a `Container` dict carrying `selectAction`
whose serialized subtree mentions `tasks[0]` or `{{tasks[`. -/
def rowCandidate (j : Json) : Bool :=
  match j with
  | .obj fs =>
    fs.get "type" = some (.str "Container") && fs.hasKey "selectAction" &&
      (j.containsTok "tasks[0]" || j.containsTok tasksBraceNeedle)
  | _ => false

/-- The extractor's header predicate: a dict whose `type` is `ColumnSet`. -/
def headerCandidate (j : Json) : Bool :=
  match j with
  | .obj fs => fs.get "type" = some (.str "ColumnSet")
  | _ => false

/-- Python `enumerate(v)` over an arbitrary value: lists yield their
elements, dicts their keys, strings their characters; other values raise
`TypeError` (modelled as `.error`). -/
def pyIterList : Json → Except Unit (List Json)
  | .arr xs => .ok xs.toList
  | .obj fs => .ok (fs.toList.map (fun kv => .str kv.1))
  | .str s => .ok (s.data.map (fun c => .str (String.mk [c])))
  | _ => .error ()

/-- Truthiness of the recursive `find_table_structure` result: `None` and the
empty list are falsy. -/
def truthyFrag : Option (List Json) → Bool
  | some (_ :: _) => true
  | _ => false

mutual
/-- `find_table_structure(items)` of `extract_task_section_template`.  The
local `table_elements` accumulator of the source is appended to when a
header/row/details triple is found but is never returned — the function only
returns a recursive result (when truthy) or `None` — so the header/row scan
cannot influence the value and is not replayed here.  Fuel `0` stands for
a still-running traversal and returns the value every finite traversal
returns. -/
def findTableStructure (data : Unit) : Nat → Json → Except Unit (Option (List Json))
  | 0, _ => .ok none
  | fuel + 1, itemsVal =>
    match pyIterList itemsVal with
    | .error e => .error e
    | .ok items => findTableStructureItems data fuel items
def findTableStructureItems (data : Unit) : Nat → List Json → Except Unit (Option (List Json))
  | 0, _ => .ok none
  | _ + 1, [] => .ok none
  | fuel + 1, item :: rest =>
    match item with
    | .obj fs =>
      let r1e :=
        match fs.get "items" with
        | some v => findTableStructure data fuel v
        | none => .ok none
      match r1e with
      | .error e => .error e
      | .ok r1 =>
        if truthyFrag r1 then .ok r1
        else
          let r2e :=
            match fs.get "body" with
            | some v => findTableStructure data fuel v
            | none => .ok none
          match r2e with
          | .error e => .error e
          | .ok r2 =>
            if truthyFrag r2 then .ok r2
            else findTableStructureItems data fuel rest
    | _ => findTableStructureItems data fuel rest
end

/-- `extract_task_section_template(full_template)`; the diagnostics printed on
the failure path do not affect the returned value. -/
def extract_task_section_template (fuel : Nat) (fullTemplate : Json) :
    Except Unit (Option TaskTemplate) :=
  match fullTemplate with
  | .obj fs =>
    match findTableStructure () fuel ((fs.get "body").getD (.arr .nil)) with
    | .error e => .error e
    | .ok (some (a :: b :: rest)) => .ok (some ⟨some a, some b, rest.head?⟩)
    | .ok _ => .ok none
  | _ => .error ()

mutual
/-- The claim's hypothesis: in no sibling list anywhere in the tree is a
header candidate immediately followed by a row candidate. -/
def Json.adjacencyFree : Json → Bool
  | .arr xs => xs.noAdjPair && xs.adjacencyFree
  | .obj fs => fs.adjacencyFree
  | _ => true
def JArr.noAdjPair : JArr → Bool
  | .nil => true
  | .cons _ .nil => true
  | .cons a (.cons b tl) => !(headerCandidate a && rowCandidate b) && JArr.noAdjPair (.cons b tl)
def JArr.adjacencyFree : JArr → Bool
  | .nil => true
  | .cons hd tl => hd.adjacencyFree && tl.adjacencyFree
def JObj.adjacencyFree : JObj → Bool
  | .nil => true
  | .cons _ v tl => v.adjacencyFree && tl.adjacencyFree
end

mutual
/-- Sufficient fuel and iterability for the traversal the extractor actually
performs from a child-list value: the value itself is iterable and the
`items`/`body` values of its dict elements recursively so. -/
def iterValOk : Nat → Json → Bool
  | 0, _ => false
  | fuel + 1, v =>
    match pyIterList v with
    | .error _ => false
    | .ok items => iterItemsOk fuel items
def iterItemsOk : Nat → List Json → Bool
  | 0, _ => false
  | _ + 1, [] => true
  | fuel + 1, item :: rest =>
    (match item with
     | .obj fs =>
       (match fs.get "items" with
        | some v => iterValOk fuel v
        | none => true) &&
       (match fs.get "body" with
        | some v => iterValOk fuel v
        | none => true)
     | _ => true) && iterItemsOk fuel rest
end

/- ### api/cards/tasks_assigned.py : build_dynamic_card_with_tasks and
inject_task_sections_into_card -/

/-- A body item counted as the footer region: a `Container` whose `items`
list holds a dict of type `ActionSet`.  (When the `items` value is a dict or
a string Python iterates keys/characters, which are never dicts; a `null`,
numeric or boolean value makes the iteration raise `TypeError` — that path is
modeled faithfully by `footerScanItem`/`insertionIndexE` below, and the C6
theorem assumes the well-formedness predicate `footerScanOk`, under which
this total predicate provably agrees with the raising scan.) -/
def isFooterContainer (item : Json) : Bool :=
  match item with
  | .obj fs =>
    fs.get "type" = some (.str "Container") &&
      (match fs.get "items" with
       | some (.arr xs) => xs.toList.any (fun s => s.hasType "ActionSet")
       | _ => false)
  | _ => false

/-- The `insertion_index` loop: starts at `len(body) - 1` and is overwritten
by the index of EVERY footer container scanned, so the last one wins. -/
def insertionIndexOf (body : List Json) : Int :=
  body.enum.foldl
    (fun acc p => if isFooterContainer p.2 then (p.1 : Int) else acc)
    ((body.length : Int) - 1)

/-- Python `list.insert(i, x)` = `l[:i] + [x] + l[i:]` with slice clamping. -/
def pyInsert (l : List α) (i : Int) (x : α) : List α :=
  let n := (if i < 0 then max 0 ((l.length : Int) + i) else min i (l.length : Int)).toNat
  l.take n ++ x :: l.drop n

/-- The injection loop `for i, s in enumerate(task_sections):
body.insert(insertion_index + i, s)`: sequential inserts at increasing
positions. -/
def insertAllFrom (p : Int) : List Json → List Json → List Json
  | [], body => body
  | s :: rest, body => insertAllFrom (p + 1) rest (pyInsert body p s)

/-- `inject_task_sections_into_card(card, task_sections)` (mutates
`card["body"]` in place; when the card has no `body` list the fresh default
list is mutated and discarded, leaving the card unchanged).  This is the
non-raising execution: on bodies whose footer scan would raise `TypeError`
(see `insertionIndexE`) the Python function returns nothing, and the C6
theorem restricts itself to `footerScanOk` bodies, where
`insertionIndexE_of_ok` shows the two scans agree. -/
def inject_task_sections_into_card (card : Json) (sections : List Json) : Json :=
  match card with
  | .obj fs =>
    match fs.get "body" with
    | some (.arr xs) =>
      let body := xs.toList
      .obj (fs.set "body" (.arr (JArr.ofList (insertAllFrom (insertionIndexOf body) sections body))))
    | _ => card
  | _ => card

/-- Modelled from the spec's words, for comparison: splice immediately before
the FIRST footer-marked region, defaulting to just before the final element. -/
def specInjectFirstFooter (body sections : List Json) : List Json :=
  let p :=
    match body.findIdx? isFooterContainer with
    | some i => (i : Int)
    | none => (body.length : Int) - 1
  insertAllFrom p sections body

/-- One step of the footer scan exactly as Python executes it: for a dict item
of type `Container` the loop `for sub_item in items` iterates the `items`
value, raising `TypeError` when that value is `null`, a number or a boolean;
a dict iterates its keys and a string its characters, neither of which is ever
an `ActionSet` dict; the `.get` default `[]` iterates nothing. -/
def footerScanItem (item : Json) : Except Unit Bool :=
  match item with
  | .obj fs =>
    if fs.get "type" = some (.str "Container") then
      match fs.get "items" with
      | some (.arr xs) => .ok (xs.toList.any (fun s => s.hasType "ActionSet"))
      | some (.str _) => .ok false
      | some (.obj _) => .ok false
      | some (.num _) => .error ()
      | some (.bool _) => .error ()
      | some .null => .error ()
      | none => .ok false
    else .ok false
  | _ => .ok false

/-- The `insertion_index` scan over `enumerate(body)` with Python's raising
semantics: the first `TypeError` aborts the function. -/
def footerScanE : List (Nat × Json) → Int → Except Unit Int
  | [], acc => .ok acc
  | p :: rest, acc =>
    match footerScanItem p.2 with
    | .error _ => .error ()
    | .ok b => footerScanE rest (if b then (p.1 : Int) else acc)

/-- The insertion index as Python computes it, `TypeError` included. -/
def insertionIndexE (body : List Json) : Except Unit Int :=
  footerScanE body.enum ((body.length : Int) - 1)

/- ### api/cards/utils.py : populate_placeholders and replace_icon_names -/

/-- All-decimal-digit run to its value (`none` when empty or non-digit). -/
def parseDigits : List Char → Option Nat
  | [] => none
  | cs =>
    if cs.all (fun c => '0' ≤ c ∧ c ≤ '9') then
      some (cs.foldl (fun a c => a * 10 + decDigitVal c) 0)
    else none

/-- Python `int(s)` for a decimal literal: strip whitespace, optional sign,
nonempty digit run; everything else raises `ValueError` (`none` here).  (The
digit-group underscores Python also accepts never appear in templates.) -/
def pyIntParse (s : String) : Option Int :=
  let t := ((s.data.dropWhile isPySpace).reverse.dropWhile isPySpace).reverse
  match t with
  | '+' :: ds => (parseDigits ds).map Int.ofNat
  | '-' :: ds => (parseDigits ds).map (fun n => -(n : Int))
  | ds => (parseDigits ds).map Int.ofNat

/-- Python `s.split('.')` (always a nonempty list of segments). -/
def splitOnDot : List Char → List (List Char)
  | [] => [[]]
  | c :: cs =>
    if c = '.' then [] :: splitOnDot cs
    else
      match splitOnDot cs with
      | s :: ss => (c :: s) :: ss
      | [] => [[c]]

/-- `result[part]` for a plain path segment: dict lookup; a missing key
(`KeyError`) or any non-dict receiver (`TypeError`) is caught by the
resolver. -/
def pyGetKeyStep (v : Json) (k : String) : Option Json :=
  match v with
  | .obj fs => fs.get k
  | _ => none

/-- `result[index]` for an `int` index: Python list (and string) indexing
with negative-offset support; out of range (`IndexError`) or a non-indexable
receiver (`TypeError`) is caught by the resolver. -/
def pyIndexStep (v : Json) (i : Int) : Option Json :=
  match v with
  | .arr xs =>
    let n := xs.toList.length
    let j := if i < 0 then i + n else i
    if 0 ≤ j ∧ j < (n : Int) then xs.toList.get? j.toNat else none
  | .str s =>
    let n := s.data.length
    let j := if i < 0 then i + n else i
    if 0 ≤ j ∧ j < (n : Int) then (s.data.get? j.toNat).map (fun c => .str (String.mk [c]))
    else none
  | _ => none

/-- `part.split('[')[0]`. -/
def bracketArrayName (cs : List Char) : List Char :=
  cs.takeWhile (· ≠ '[')

/-- `part.split('[')[1].split(']')[0]`. -/
def bracketIndexText (cs : List Char) : List Char :=
  (((cs.dropWhile (· ≠ '[')).drop 1).takeWhile (· ≠ '[')).takeWhile (· ≠ ']')

/-- One segment of the bracketed branch of the resolver:
`result[array_name][index]` when the segment has both brackets, else
`result[part]`.  A failing `int()` raises `ValueError`, which the resolver's
`except (KeyError, IndexError, TypeError)` does NOT catch (`.error`); the
caught failures yield `.ok none`. -/
def resolvePartBr (cur : Json) (part : List Char) : Except Unit (Option Json) :=
  if '[' ∈ part ∧ ']' ∈ part then
    match pyIntParse (String.mk (bracketIndexText part)) with
    | none => .error ()
    | some i =>
      match pyGetKeyStep cur (String.mk (bracketArrayName part)) with
      | none => .ok none
      | some v => .ok (pyIndexStep v i)
  else .ok (pyGetKeyStep cur (String.mk part))

/-- The segment loop of the bracketed branch. -/
def resolvePartsBr (cur : Json) : List (List Char) → Except Unit (Option Json)
  | [] => .ok (some cur)
  | p :: ps => do
    let r ← resolvePartBr cur p
    match r with
    | none => .ok none
    | some v => resolvePartsBr v ps

/-- The segment loop of the plain branch (`result = result[part]`). -/
def resolvePartsPlain (cur : Json) : List (List Char) → Option Json
  | [] => some cur
  | p :: ps =>
    match pyGetKeyStep cur (String.mk p) with
    | none => none
    | some v => resolvePartsPlain v ps

/-- The `replacer` body up to rendering: resolve one `{{...}}` token text
against the context.  `.ok none` means a caught resolution failure (missing
key, wrong type, out-of-range index): the caller keeps the original text. -/
def resolvePlaceholder (data : Json) (tok : List Char) : Except Unit (Option String) :=
  if '[' ∈ tok ∧ ']' ∈ tok then
    (resolvePartsBr data (splitOnDot tok)).map (Option.map Json.pyStr)
  else .ok ((resolvePartsPlain data (splitOnDot tok)).map Json.pyStr)

/-- `re.sub(r'\x7b\x7b([^\x7d]+)\x7d\x7d', replacer, s)` as a left-to-right
scan: at a `{{` whose bracket-free token is nonempty and followed by `}}`,
the token is replaced (or kept verbatim on a caught resolution failure) and
scanning resumes after the match; otherwise the scan advances one character.
Fuel `≥ |l|` suffices (each step consumes at least one character). -/
def scanGo (data : Json) : Nat → List Char → Except Unit (List Char)
  | 0, l => .ok l
  | _ + 1, [] => .ok []
  | fuel + 1, '{' :: '{' :: rest =>
    let tok := rest.takeWhile (· ≠ '}')
    let rest2 := rest.dropWhile (· ≠ '}')
    if tok ≠ [] ∧ rest2.take 2 = ['}', '}'] then
      match resolvePlaceholder data tok with
      | .error e => .error e
      | .ok r =>
        match scanGo data fuel (rest2.drop 2) with
        | .error e => .error e
        | .ok tail =>
          .ok ((match r with
                | some s => s.data
                | none => '{' :: '{' :: (tok ++ ['}', '}'])) ++ tail)
    else
      match scanGo data fuel ('{' :: rest) with
      | .error e => .error e
      | .ok tail => .ok ('{' :: tail)
  | fuel + 1, c :: cs =>
    match scanGo data fuel cs with
    | .error e => .error e
    | .ok tail => .ok (c :: tail)

/-- `re.sub` over a whole string value. -/
def pySubPlaceholders (data : Json) (s : String) : Except Unit String :=
  (scanGo data s.data.length s.data).map String.mk

mutual
/-- The `replace_placeholders` walk of `populate_placeholders`: rebuild dicts
and lists, substitute in string values (dict KEYS are not rewritten), return
every other leaf as-is. -/
def Json.resolveWalk (data : Json) : Json → Except Unit Json
  | .str s => (pySubPlaceholders data s).map .str
  | .arr xs => (JArr.resolveWalk data xs).map .arr
  | .obj fs => (JObj.resolveWalk data fs).map .obj
  | other => .ok other
def JArr.resolveWalk (data : Json) : JArr → Except Unit JArr
  | .nil => .ok .nil
  | .cons hd tl => do
    let h2 ← Json.resolveWalk data hd
    let t2 ← JArr.resolveWalk data tl
    .ok (.cons h2 t2)
def JObj.resolveWalk (data : Json) : JObj → Except Unit JObj
  | .nil => .ok .nil
  | .cons k v tl => do
    let v2 ← Json.resolveWalk data v
    let t2 ← JObj.resolveWalk data tl
    .ok (.cons k v2 t2)
end

mutual
/-- `replace_icon_names(obj, from_name, to_name)`: rename matching `Icon`
nodes in place, recursing into every value.  As with `_set_icons_in_subtree`,
the written `.str` atom lets the write commute with the recursion. -/
def Json.replaceIconNames (fromName toName : String) : Json → Json
  | .obj fs =>
    let processed := fs.replaceIconNames fromName toName
    if fs.get "type" = some (.str "Icon") ∧ fs.get "name" = some (.str fromName) then
      .obj (processed.set "name" (.str toName))
    else .obj processed
  | .arr xs => .arr (xs.replaceIconNames fromName toName)
  | other => other
def JArr.replaceIconNames (fromName toName : String) : JArr → JArr
  | .nil => .nil
  | .cons hd tl => .cons (hd.replaceIconNames fromName toName) (tl.replaceIconNames fromName toName)
def JObj.replaceIconNames (fromName toName : String) : JObj → JObj
  | .nil => .nil
  | .cons k v tl => .cons k (v.replaceIconNames fromName toName) (tl.replaceIconNames fromName toName)
end

/-- `populate_placeholders(template, data)`: the walk, then the
`CheckmarkCircle → Info` icon normalization (whose enclosing `try` can never
fire since `replace_icon_names` raises nothing). -/
def populate_placeholders (template data : Json) : Except Unit Json :=
  (Json.resolveWalk data template).map (Json.replaceIconNames "CheckmarkCircle" "Info")

/- ### api/cards/upcoming_deadline.py : rows, details and exclusive wiring -/

def jstr (s : String) : Json := .str s
def jnum (n : Int) : Json := .num n
def jbool (b : Bool) : Json := .bool b
def jarr (xs : List Json) : Json := .arr (JArr.ofList xs)
def jobj (fs : List (String × Json)) : Json := .obj (JObj.ofList fs)

/-- `task.get(key, '')` followed by `str(...)`. -/
def taskField (task : Json) (k : String) : String :=
  ((task.getKey k).getD (.str "")).pyStr

/-- `_build_task_row_from_reference(task, details_id)`. -/
def build_task_row_from_reference (task : Json) (detailsId : String) : Json :=
  let title := taskField task "title"
  let ttype := taskField task "type"
  let due := taskField task "dueDate"
  let iconName := get_icon_for_task_type (task.getKey "type")
  jobj
    [("type", jstr "Container"),
     ("selectAction", jobj
       [("type", jstr "Action.ToggleVisibility"),
        ("targetElements", jarr [jobj [("elementId", jstr detailsId)]])]),
     ("separator", jbool true),
     ("spacing", jstr "Small"),
     ("items", jarr
       [jobj
         [("type", jstr "ColumnSet"),
          ("columns", jarr
            [jobj
              [("type", jstr "Column"),
               ("width", jnum 3),
               ("items", jarr
                 [jobj
                   [("type", jstr "TextBlock"),
                    ("text", jstr title),
                    ("maxLines", jnum 1),
                    ("spacing", jstr "Small"),
                    ("isSubtle", jbool false),
                    ("size", jstr "Small")]]),
               ("verticalContentAlignment", jstr "Center")],
             jobj
              [("type", jstr "Column"),
               ("width", jnum 2),
               ("items", jarr
                 [jobj
                   [("type", jstr "ColumnSet"),
                    ("columns", jarr
                      [jobj
                        [("type", jstr "Column"),
                         ("width", jstr "auto"),
                         ("items", jarr
                           [jobj
                             [("type", jstr "Icon"),
                              ("name", jstr iconName),
                              ("size", jstr "xxSmall"),
                              ("spacing", jstr "Small")]])],
                       jobj
                        [("type", jstr "Column"),
                         ("width", jstr "stretch"),
                         ("items", jarr
                           [jobj
                             [("type", jstr "TextBlock"),
                              ("text", jstr ttype),
                              ("wrap", jbool true),
                              ("size", jstr "Small")]])]])]]),
               ("verticalContentAlignment", jstr "Center")],
             jobj
              [("type", jstr "Column"),
               ("width", jnum 2),
               ("items", jarr
                 [jobj
                   [("type", jstr "ColumnSet"),
                    ("spacing", jstr "None"),
                    ("columns", jarr
                      [jobj
                        [("type", jstr "Column"),
                         ("width", jstr "stretch"),
                         ("items", jarr
                           [jobj
                             [("type", jstr "TextBlock"),
                              ("text", jstr due),
                              ("size", jstr "Small")]])],
                       jobj
                        [("type", jstr "Column"),
                         ("width", jstr "auto"),
                         ("items", jarr
                           [jobj
                             [("type", jstr "Input.Toggle"),
                              ("spacing", jstr "None")]]),
                         ("spacing", jstr "None")],
                       jobj
                        [("type", jstr "Column"),
                         ("width", jstr "auto"),
                         ("items", jarr
                           [jobj
                             [("type", jstr "Icon"),
                              ("name", jstr "info"),
                              ("size", jstr "xxSmall")]]),
                         ("spacing", jstr "None")]])]]),
               ("verticalContentAlignment", jstr "Center")]])]])]

/-- A label/value section of the details container (transcription helper for
the repeated `ColumnSet` shape of `_build_task_details_from_reference`). -/
def detailsLabelSection (label value : String) (sep : Bool) : Json :=
  jobj
    ([("type", jstr "ColumnSet"),
      ("spacing", jstr "Small"),
      ("columns", jarr
        [jobj
          [("type", jstr "Column"),
           ("width", jnum 30),
           ("items", jarr
             [jobj
               [("type", jstr "TextBlock"),
                ("text", jstr label),
                ("size", jstr "Small"),
                ("isSubtle", jbool true)]])],
         jobj
          [("type", jstr "Column"),
           ("width", jnum 65),
           ("items", jarr
             [jobj
               [("type", jstr "TextBlock"),
                ("text", jstr value),
                ("size", jstr "Small")]])]])] ++
     (if sep then [("separator", jbool true)] else []))

/-- `_build_task_details_from_reference(task, details_id)`.  (The icon-framed
`Meeting origin` and `Relation` sections are transcribed with their icons.) -/
def build_task_details_from_reference (task : Json) (detailsId : String) : Json :=
  jobj
    [("type", jstr "Container"),
     ("style", jstr "emphasis"),
     ("id", jstr detailsId),
     ("items", jarr
       [jobj
         [("type", jstr "TextBlock"),
          ("text", jstr (taskField task "detailsTitle")),
          ("size", jstr "Medium"),
          ("weight", jstr "Bolder"),
          ("spacing", jstr "None")],
        jobj
         [("type", jstr "ColumnSet"),
          ("spacing", jstr "Small"),
          ("columns", jarr
            [jobj
              [("type", jstr "Column"),
               ("width", jnum 30),
               ("items", jarr
                 [jobj
                   [("type", jstr "TextBlock"),
                    ("text", jstr "Meeting origin"),
                    ("size", jstr "Small"),
                    ("isSubtle", jbool true),
                    ("spacing", jstr "None")]])],
             jobj
              [("type", jstr "Column"),
               ("width", jnum 65),
               ("items", jarr
                 [jobj
                   [("type", jstr "ColumnSet"),
                    ("spacing", jstr "Small"),
                    ("columns", jarr
                      [jobj
                        [("type", jstr "Column"),
                         ("width", jstr "auto"),
                         ("items", jarr
                           [jobj [("type", jstr "Icon"), ("name", jstr "Calendar"), ("size", jstr "xSmall")]])],
                       jobj
                        [("type", jstr "Column"),
                         ("width", jstr "stretch"),
                         ("items", jarr
                           [jobj
                             [("type", jstr "TextBlock"),
                              ("text", jstr (taskField task "meetingOrigin")),
                              ("size", jstr "Small"),
                              ("wrap", jbool true)]]),
                         ("spacing", jstr "ExtraSmall")]])]])]])],
        detailsLabelSection "Meeting date" (taskField task "meetingDate") true,
        jobj
         [("type", jstr "ColumnSet"),
          ("spacing", jstr "Small"),
          ("columns", jarr
            [jobj
              [("type", jstr "Column"),
               ("width", jnum 30),
               ("items", jarr
                 [jobj
                   [("type", jstr "TextBlock"),
                    ("text", jstr "Agenda item"),
                    ("size", jstr "Small"),
                    ("isSubtle", jbool true)]]),
               ("verticalContentAlignment", jstr "Top")],
             jobj
              [("type", jstr "Column"),
               ("width", jnum 65),
               ("items", jarr
                 [jobj
                   [("type", jstr "TextBlock"),
                    ("text", jstr (taskField task "agendaItem")),
                    ("size", jstr "Small"),
                    ("wrap", jbool true)]])]]),
          ("separator", jbool true)],
        jobj
         [("type", jstr "ColumnSet"),
          ("spacing", jstr "Small"),
          ("columns", jarr
            [jobj
              [("type", jstr "Column"),
               ("width", jnum 30),
               ("items", jarr
                 [jobj
                   [("type", jstr "TextBlock"),
                    ("text", jstr "Relation"),
                    ("size", jstr "Small"),
                    ("isSubtle", jbool true)]])],
             jobj
              [("type", jstr "Column"),
               ("width", jnum 65),
               ("items", jarr
                 [jobj
                   [("type", jstr "ColumnSet"),
                    ("spacing", jstr "Small"),
                    ("columns", jarr
                      [jobj
                        [("type", jstr "Column"),
                         ("width", jstr "auto"),
                         ("items", jarr
                           [jobj [("type", jstr "Icon"), ("name", jstr "Target"), ("size", jstr "xSmall")]])],
                       jobj
                        [("type", jstr "Column"),
                         ("width", jstr "stretch"),
                         ("items", jarr
                           [jobj
                             [("type", jstr "TextBlock"),
                              ("text", jstr (taskField task "relation")),
                              ("size", jstr "Small"),
                              ("wrap", jbool true),
                              ("spacing", jstr "None")]]),
                         ("spacing", jstr "ExtraSmall")]])]])]]),
          ("separator", jbool true)]]),
     ("separator", jbool true),
     ("isVisible", jbool false)]

/-- The `details1..detailsN` identifiers built by the row/details loop
(`enumerate(tasks, start=1)`). -/
def upcomingDetailsIds (tasks : List Json) : List String :=
  (List.range tasks.length).map detailsIdStr

/-- The interleaved `rows_and_details` list of `build_upcoming_deadline_card`. -/
def upcomingRowsAndDetails (tasks : List Json) : List Json :=
  (List.range tasks.length).flatMap (fun r =>
    match tasks.get? r with
    | some t =>
      [build_task_row_from_reference t (detailsIdStr r),
       build_task_details_from_reference t (detailsIdStr r)]
    | none => [])

/-- The complete-state target list written onto row `r`: every generated id,
its own visible, all others invisible (dict-literal key order preserved). -/
def exclusiveTargets (ids : List String) (did : String) : Json :=
  jarr (ids.map (fun other => jobj [("elementId", jstr other), ("isVisible", jbool (other = did))]))

/-- The per-row rewrite of the exclusive-open loop: ensure a dict
`selectAction`, force its `type` to `Action.ToggleVisibility` and overwrite
`targetElements` with the complete-state list.  Non-dict rows are skipped. -/
def wireRowExclusive (ids : List String) (did : String) (row : Json) : Json :=
  match row with
  | .obj fs =>
    let sa :=
      match fs.get "selectAction" with
      | some (.obj s) => s
      | _ => JObj.ofList [("type", jstr "Action.ToggleVisibility")]
    .obj (fs.set "selectAction"
      (.obj ((sa.set "type" (jstr "Action.ToggleVisibility")).set "targetElements"
        (exclusiveTargets ids did))))
  | other => other

/-- The exclusive-open loop of `build_upcoming_deadline_card` (lines 334-349):
for each `r`, rewrite the element at index `2*r` when it exists. -/
def wireExclusiveOpen (items : List Json) (ids : List String) : List Json :=
  if ids.isEmpty then items
  else
    (List.range ids.length).foldl
      (fun acc r =>
        match acc.get? (2 * r) with
        | some row => acc.set (2 * r) (wireRowExclusive ids (ids.getD r "") row)
        | none => acc)
      items

/- ### api/message_service.py : the single-details wiring of
build_deadline_card_from_sample_exm (lines 640-667) -/

/-- Python truthiness of a decoded JSON value. -/
def pyTruthy : Json → Bool
  | .null => false
  | .bool b => b
  | .num n => n ≠ 0
  | .str s => s ≠ ""
  | .arr .nil => false
  | .arr _ => true
  | .obj .nil => false
  | .obj _ => true

/-- The target list `[own visible] ++ [every other id invisible]` written by
the message-service wiring for the row whose own id is `my`. -/
def singleDetailsTargets (detailIds : List String) (my : String) : Json :=
  jarr (jobj [("elementId", jstr my), ("isVisible", jbool true)] ::
    (detailIds.filter (fun did => did ≠ my)).map
      (fun did => jobj [("elementId", jstr did), ("isVisible", jbool false)]))

/-- Is this item counted as a row by the message-service wiring walk:
a dict of type `Container` with a truthy `selectAction`. -/
def msRowTest (it : Json) : Bool :=
  match it with
  | .obj fs =>
    fs.get "type" = some (.str "Container") && pyTruthy ((fs.get "selectAction").getD .null)
  | _ => false

/-- The walk of lines 644-657: count row containers in order; the `k`-th one
(1-based `row_idx`) gets `targetElements := singleDetailsTargets ids
(details{row_idx})` inside its `selectAction` (a non-dict `selectAction`
would raise and abort the whole wiring `try`; rows built by this module
always carry a dict). -/
def enforceSingleDetailsGo (detailIds : List String) : Nat → List Json → List Json
  | _, [] => []
  | cnt, it :: rest =>
    if msRowTest it then
      let my := "details" ++ natToDec (cnt + 1)
      let it2 :=
        match it with
        | .obj fs =>
          match fs.get "selectAction" with
          | some (.obj sa) =>
            Json.obj (fs.set "selectAction"
              (.obj (sa.set "targetElements" (singleDetailsTargets detailIds my))))
          | _ => it
        | _ => it
      it2 :: enforceSingleDetailsGo detailIds (cnt + 1) rest
    else it :: enforceSingleDetailsGo detailIds cnt rest

/-- The whole single-details enforcement over `parent_container['items']`,
with `detail_ids = [details1..detailsN]` for `N = len(tasks)`. -/
def enforceSingleDetails (nTasks : Nat) (items : List Json) : List Json :=
  enforceSingleDetailsGo ((List.range nTasks).map detailsIdStr) 0 items

/- ### api/cards/tasks_assigned.py : the composition pipeline
build_dynamic_card_with_tasks, with template loading and the data argument
made explicit (load_card_by_name is filesystem I/O). -/

/-- `data.get("tasks", [])` followed by `len(...)`/indexing: the task list. -/
def tasksOf (data : Json) : List Json :=
  match (data.getKey "tasks").getD (.arr .nil) with
  | .arr xs => xs.toList
  | _ => []

/-- `build_dynamic_card_with_tasks(data)` with the two loaded templates as
parameters (`none` = load failure).  `.ok none` is the `return None` path;
`.error` propagates an uncaught exception of a traversal. -/
def build_dynamic_card_with_tasks (baseTemplate fullTemplate : Option Json)
    (data : Json) (fuel : Nat) : Except Unit (Option Json) :=
  match baseTemplate with
  | none => .ok none
  | some base =>
    match fullTemplate with
    | none => .ok none
    | some full => do
      let tasks := tasksOf data
      let tpl ← extract_task_section_template fuel full
      match tpl with
      | none => .ok none
      | some tpl => do
        let card :=
          if tasks.length > 0 then
            inject_task_sections_into_card base (generate_task_sections (some tpl) tasks)
          else base
        let populated ← populate_placeholders card data
        .ok (some populated)

/- ### api/message_service.py : send_message_to_user_service (the delivery
fallback chain), with every network effect as an explicit outcome. -/

/-- An aiohttp `json_response(payload, status)`. -/
structure JsonResponse where
  status : Nat
  body : Json
deriving DecidableEq

/-- `send_message_to_user_service` from the card build onwards.  Parameters
stand for the effects, in program order: the built card, the token fetch,
the user lookup (its `id`), the stored `CONVERSATION_REFERENCE` truthiness,
the Bot Framework send outcome, the chat find-or-create outcome, and the
Graph send outcome. -/
def send_message_to_user_service (email : String)
    (cardBuild : Option Json)
    (token : Except String Unit)
    (userId : Option String)
    (hasConvRef : Bool)
    (botSend : Except String Json)
    (chatId : Option String)
    (graphSend : Except String Json) : JsonResponse :=
  match cardBuild with
  | none => ⟨500, jobj [("error", jstr "Failed to build dynamic card with tasks")]⟩
  | some _ =>
    match token with
    | .error e => ⟨500, jobj [("error", jstr e)]⟩
    | .ok () =>
      match userId with
      | none => ⟨404, jobj [("error", jstr ("User with email " ++ email ++ " not found"))]⟩
      | some uid =>
        let botOutcome : Except String Json :=
          if hasConvRef then botSend else .error "No conversation reference"
        match botOutcome with
        | .ok result => ⟨200, result⟩
        | .error botErr =>
          match chatId with
          | none =>
            ⟨500, jobj [("error", jstr ("Could not find or create chat for user " ++ email))]⟩
          | some cid =>
            match graphSend with
            | .ok messageData =>
              ⟨200, jobj
                [("status", jstr ("TasksAssignedToUser card sent to " ++ email)),
                 ("method", jstr "graph_api"),
                 ("chat_id", jstr cid),
                 ("user_id", jstr uid),
                 ("message_id",
                   match messageData with
                   | .obj fs => (fs.get "id").getD .null
                   | _ => .null)]⟩
            | .error graphErr =>
              ⟨500, jobj
                [("error", jstr "Both Bot Framework and Graph API approaches failed. User may need to interact with the bot first."),
                 ("bot_error", jstr botErr),
                 ("graph_error", jstr graphErr),
                 ("recommendation", jstr "Have the user send a message to the bot in Teams first, or ensure the bot is properly installed in Teams")]⟩

/- ### api/card_update_service.py : update_card_via_bot_framework (identical
copy in api/message_service.py), id-selection and retry logic of lines
43-97, with `turn_context.update_activity` as an outcome function. -/

/-- The `for attempt_id in [primary_id, alternate_id]` loop: skip `None` and
already-tried ids, stop at the first success, remember the last error.
Returns (tried ids in order, last error, succeeded?). -/
def updateAttemptLoop (attempt : String → Except String Unit) :
    List (Option String) → List String → Option String → List String × Option String × Bool
  | [], tried, lastErr => (tried, lastErr, false)
  | none :: restC, tried, lastErr => updateAttemptLoop attempt restC tried lastErr
  | some idc :: restC, tried, lastErr =>
    if idc ∈ tried then updateAttemptLoop attempt restC tried lastErr
    else
      match attempt idc with
      | .ok () => (tried ++ [idc], lastErr, true)
      | .error e => updateAttemptLoop attempt restC (tried ++ [idc]) (some e)

/-- `update_card_via_bot_framework` from the id-selection onwards (the
conversation-reference resolution above it raises before any attempt when no
reference or no service url exists, which the parameters presuppose).  The
second component is the observable `tried` sequence. -/
def update_card_via_bot_framework (activityId refActivityId : Option String)
    (attempt : String → Except String Unit) : Except String Json × List String :=
  match activityId.orElse (fun _ => refActivityId) with
  | none =>
    (.error "No activity_id provided and conversation_reference.activityId missing. Cannot update.",
     [])
  | some chosenId =>
    let pair : String × Option String :=
      match activityId, refActivityId with
      | some a, some r => if a ≠ r then (a, some r) else (chosenId, none)
      | none, some r => (r, none)
      | some a, none => (a, none)
      | none, none => (chosenId, none)
    let (tried, lastErr, ok) := updateAttemptLoop attempt [some pair.1, pair.2] [] none
    if ok then
      (.ok (jobj
        [("status", jstr "updated"),
         ("method", jstr "bot_framework"),
         ("activity_id", (activityId.map jstr).getD .null),
         ("used_activity_id", jstr chosenId),
         ("ref_activity_id", (refActivityId.map jstr).getD .null)]), tried)
    else
      match lastErr with
      | some e => (.error e, tried)
      | none =>
        (.ok (jobj
          [("status", jstr "updated"),
           ("method", jstr "bot_framework"),
           ("activity_id", (activityId.map jstr).getD .null),
           ("used_activity_id", jstr chosenId),
           ("ref_activity_id", (refActivityId.map jstr).getD .null)]), tried)

/- ### The two public `update_card_service` entry points.  Their bodies are
textually identical except that the message_service.py copy ends with a final
400 response for the "neither id" case while the card_update_service.py copy
falls off the end (Python returns None).  Both delegate to identical helper
copies, abstracted as shared outcome parameters. -/

/-- `update_card_service` of api/message_service.py (lines 1093-1118). -/
def update_card_service_message_service (cardName : Option String)
    (updatedCard : Option Json) (activityId chatId : Option String)
    (bfUpdate : Except String Json) (graphUpdate : Except String Json) :
    Option JsonResponse :=
  let resolvedName := cardName.getD "TasksAssignedToUserUpdated.json"
  match updatedCard with
  | none =>
    some ⟨404, jobj [("error", jstr ("Updated card template '" ++ resolvedName ++ "' not found."))]⟩
  | some _ =>
    let bfStage : Option JsonResponse :=
      if activityId.isSome then
        match bfUpdate with
        | .ok result => some ⟨200, result⟩
        | .error e =>
          if chatId.isNone then
            some ⟨400, jobj
              [("error", jstr ("Bot Framework update failed: " ++ e)),
               ("recommendation", jstr "Provide 'chat_id' to send updated card as a new message via Graph API, or include 'conversation_reference' for exact replacement.")]⟩
          else none
      else none
    match bfStage with
    | some resp => some resp
    | none =>
      match chatId with
      | some _ =>
        match graphUpdate with
        | .ok result => some ⟨200, result⟩
        | .error e =>
          some ⟨500, jobj [("error", jstr ("Graph API failed to send updated card: " ++ e))]⟩
      | none =>
        some ⟨400, jobj
          [("error", jstr "Provide 'activity_id' (Bot Framework) to replace the existing card, or 'chat_id' (Graph API) to send a new updated message.")]⟩

/-- `update_card_service` of api/card_update_service.py (lines 106-129):
same logic, but no final return — `none` is Python's implicit `None`. -/
def update_card_service_card_update_service (cardName : Option String)
    (updatedCard : Option Json) (activityId chatId : Option String)
    (bfUpdate : Except String Json) (graphUpdate : Except String Json) :
    Option JsonResponse :=
  let resolvedName := cardName.getD "TasksAssignedToUserUpdated.json"
  match updatedCard with
  | none =>
    some ⟨404, jobj [("error", jstr ("Updated card template '" ++ resolvedName ++ "' not found."))]⟩
  | some _ =>
    let bfStage : Option JsonResponse :=
      if activityId.isSome then
        match bfUpdate with
        | .ok result => some ⟨200, result⟩
        | .error e =>
          if chatId.isNone then
            some ⟨400, jobj
              [("error", jstr ("Bot Framework update failed: " ++ e)),
               ("recommendation", jstr "Provide 'chat_id' to send updated card as a new message via Graph API, or include 'conversation_reference' for exact replacement.")]⟩
          else none
      else none
    match bfStage with
    | some resp => some resp
    | none =>
      match chatId with
      | some _ =>
        match graphUpdate with
        | .ok result => some ⟨200, result⟩
        | .error e =>
          some ⟨500, jobj [("error", jstr ("Graph API failed to send updated card: " ++ e))]⟩
      | none => none

/- ### Heap model of api/cards/utils.py, for the frame property of
populate_placeholders: Python objects live in a store of nodes addressed by
`Nat`; dicts and lists hold the ADDRESSES of their members, so in-place
mutation and sharing are visible.  Fresh objects are appended (a bump
allocator); `replace_icon_names` writes through addresses. -/

inductive HNode where
  | hstr (s : String)
  | hnum (n : Int)
  | hbool (b : Bool)
  | hnull
  | harr (elems : List Nat)
  | hobj (fields : List (String × Nat))
deriving DecidableEq

abbrev PyHeap := List HNode

/-- Addresses a node refers to. -/
def HNode.childAddrs : HNode → List Nat
  | .harr elems => elems
  | .hobj fields => fields.map (fun kv => kv.2)
  | _ => []

/-- First binding of `k`. -/
def assocGet : List (String × Nat) → String → Option Nat
  | [], _ => none
  | (k, v) :: rest, key => if k = key then some v else assocGet rest key

/-- `obj[k] = v` on a field list: replace the first binding (append if new). -/
def assocSet : List (String × Nat) → String → Nat → List (String × Nat)
  | [], key, w => [(key, w)]
  | (k, v) :: rest, key, w =>
    if k = key then (k, w) :: rest else (k, v) :: assocSet rest key w

/-- Write the field `k` of the dict object at address `a`. -/
def heapSetField (σ : PyHeap) (a : Nat) (k : String) (v : Nat) : PyHeap :=
  match σ.get? a with
  | some (.hobj fields) => σ.set a (.hobj (assocSet fields k v))
  | _ => σ

mutual
/-- Heap semantics of the `replace_placeholders` walk: strings are
re-substituted into fresh string objects, dicts and lists are rebuilt as
fresh objects over recursively processed members, every other value is
returned as the same object (`return obj`).  Nothing is ever written to an
existing address.  Fuel `0` and dangling addresses are `.error` (a finite
well-formed heap never hits them with `fuel` above its depth). -/
def replacePlaceholdersHeap (data : Json) : Nat → PyHeap → Nat → Except Unit (PyHeap × Nat)
  | 0, _, _ => .error ()
  | fuel + 1, σ, a =>
    match σ.get? a with
    | none => .error ()
    | some (.hstr s) =>
      match pySubPlaceholders data s with
      | .error e => .error e
      | .ok s2 => .ok (σ ++ [HNode.hstr s2], σ.length)
    | some (.harr elems) =>
      match replacePlaceholdersHeapList data fuel σ elems with
      | .error e => .error e
      | .ok p => .ok (p.1 ++ [HNode.harr p.2], p.1.length)
    | some (.hobj fields) =>
      match replacePlaceholdersHeapFields data fuel σ fields with
      | .error e => .error e
      | .ok p => .ok (p.1 ++ [HNode.hobj p.2], p.1.length)
    | some _ => .ok (σ, a)
def replacePlaceholdersHeapList (data : Json) :
    Nat → PyHeap → List Nat → Except Unit (PyHeap × List Nat)
  | 0, _, _ => .error ()
  | _ + 1, σ, [] => .ok (σ, [])
  | fuel + 1, σ, a :: as =>
    match replacePlaceholdersHeap data fuel σ a with
    | .error e => .error e
    | .ok p =>
      match replacePlaceholdersHeapList data fuel p.1 as with
      | .error e => .error e
      | .ok q => .ok (q.1, p.2 :: q.2)
def replacePlaceholdersHeapFields (data : Json) :
    Nat → PyHeap → List (String × Nat) → Except Unit (PyHeap × List (String × Nat))
  | 0, _, _ => .error ()
  | _ + 1, σ, [] => .ok (σ, [])
  | fuel + 1, σ, kv :: rest =>
    match replacePlaceholdersHeap data fuel σ kv.2 with
    | .error e => .error e
    | .ok p =>
      match replacePlaceholdersHeapFields data fuel p.1 rest with
      | .error e => .error e
      | .ok q => .ok (q.1, (kv.1, p.2) :: q.2)
end

/-- Does the dict node at `a` currently satisfy
`obj.get('type') == 'Icon' and obj.get('name') == from_name`? -/
def iconMatchAt (σ : PyHeap) (fields : List (String × Nat)) (fromName : String) : Bool :=
  (match (assocGet fields "type").bind σ.get? with
   | some (.hstr t) => t = "Icon"
   | _ => false) &&
  (match (assocGet fields "name").bind σ.get? with
   | some (.hstr nm) => nm = fromName
   | _ => false)

mutual
/-- Heap semantics of `replace_icon_names`: on a dict, first (possibly) write
a fresh string into its `name` field in place, then reassign every field to
the recursively processed value, in place; on a list, build a FRESH list of
processed members; every other value is returned unchanged.  Fuel exhaustion
returns the object unchanged (never reached on well-formed trees). -/
def replaceIconNamesHeap (fromName toName : String) : Nat → PyHeap → Nat → PyHeap × Nat
  | 0, σ, a => (σ, a)
  | fuel + 1, σ, a =>
    match σ.get? a with
    | some (.hobj fields) =>
      let st :=
        if iconMatchAt σ fields fromName then
          (σ ++ [HNode.hstr toName] |>.set a (.hobj (assocSet fields "name" σ.length)),
           assocSet fields "name" σ.length)
        else (σ, fields)
      (replaceIconNamesHeapLoop fromName toName fuel st.1 a st.2, a)
    | some (.harr elems) =>
      let p := replaceIconNamesHeapElems fromName toName fuel σ elems
      (p.1 ++ [HNode.harr p.2], p.1.length)
    | _ => (σ, a)
def replaceIconNamesHeapLoop (fromName toName : String) :
    Nat → PyHeap → Nat → List (String × Nat) → PyHeap
  | 0, σ, _, _ => σ
  | _ + 1, σ, _, [] => σ
  | fuel + 1, σ, a, kv :: rest =>
    let p := replaceIconNamesHeap fromName toName fuel σ kv.2
    replaceIconNamesHeapLoop fromName toName fuel (heapSetField p.1 a kv.1 p.2) a rest
def replaceIconNamesHeapElems (fromName toName : String) :
    Nat → PyHeap → List Nat → PyHeap × List Nat
  | 0, σ, _ => (σ, [])
  | _ + 1, σ, [] => (σ, [])
  | fuel + 1, σ, a :: as =>
    let p := replaceIconNamesHeap fromName toName fuel σ a
    let q := replaceIconNamesHeapElems fromName toName fuel p.1 as
    (q.1, p.2 :: q.2)
end

/-- `populate_placeholders` over the heap: the resolution walk builds the new
tree, then the icon rename mutates (only) that new tree in place. -/
def populate_placeholders_heap (data : Json) (fuel : Nat) (σ : PyHeap) (a : Nat) :
    Except Unit (PyHeap × Nat) :=
  match replacePlaceholdersHeap data fuel σ a with
  | .error e => .error e
  | .ok p => .ok (replaceIconNamesHeap "CheckmarkCircle" "Info" fuel p.1 p.2)

mutual
/-- Read back the tree rooted at an address as a pure JSON value. -/
def decodeH : Nat → PyHeap → Nat → Option Json
  | 0, _, _ => none
  | fuel + 1, σ, a =>
    match σ.get? a with
    | some (.hstr s) => some (.str s)
    | some (.hnum n) => some (.num n)
    | some (.hbool b) => some (.bool b)
    | some .hnull => some .null
    | some (.harr elems) => (decodeHList fuel σ elems).map (fun l => .arr (JArr.ofList l))
    | some (.hobj fields) => (decodeHFields fuel σ fields).map (fun l => .obj (JObj.ofList l))
    | none => none
def decodeHList : Nat → PyHeap → List Nat → Option (List Json)
  | 0, _, _ => none
  | _ + 1, _, [] => some []
  | fuel + 1, σ, a :: as =>
    match decodeH fuel σ a with
    | none => none
    | some v =>
      match decodeHList fuel σ as with
      | none => none
      | some vs => some (v :: vs)
def decodeHFields : Nat → PyHeap → List (String × Nat) → Option (List (String × Json))
  | 0, _, _ => none
  | _ + 1, _, [] => some []
  | fuel + 1, σ, kv :: rest =>
    match decodeH fuel σ kv.2 with
    | none => none
    | some v =>
      match decodeHFields fuel σ rest with
      | none => none
      | some vs => some ((kv.1, v) :: vs)
end

/-- Every address referenced by a resident node is itself resident. -/
def heapClosed (σ : PyHeap) : Prop :=
  ∀ n ∈ σ, ∀ b ∈ n.childAddrs, b < σ.length

/-- A node kind the icon-rename pass can neither write to nor descend into. -/
def isLeafNode : Option HNode → Prop
  | some (.hnum _) => True
  | some (.hbool _) => True
  | some .hnull => True
  | _ => False

/-- An address the resolution walk may hand out: fresh (`≥ N`), or an old
immutable leaf passed through by `return obj`. -/
def freshOrLeaf (σ : PyHeap) (N b : Nat) : Prop :=
  N ≤ b ∨ isLeafNode (σ.get? b)

/-- Every fresh container's members are again fresh-or-leaf: the shape of the
region the resolution walk builds above the original heap. -/
def goodHeap (σ : PyHeap) (N : Nat) : Prop :=
  ∀ a n, σ.get? a = some n → N ≤ a → ∀ b ∈ n.childAddrs, freshOrLeaf σ N b

/-- The two heaps agree on every address below `N`. -/
def agreeBelow (N : Nat) (σ σ' : PyHeap) : Prop :=
  ∀ b, b < N → σ'.get? b = σ.get? b

/- ### Specification-side helper definitions used by the theorems -/

deriving instance DecidableEq for Except

/-- Decimal value of a digit-character list (left inverse of `decChars`). -/
def decValOfChars (cs : List Char) : Nat :=
  cs.foldl (fun a c => a * 10 + decDigitVal c) 0

/-- The target list of a node's activation behavior, when present. -/
def rowTargets (node : Json) : Option Json :=
  (node.getKey "selectAction").bind (fun sa => sa.getKey "targetElements")

/-- Does every node carrying an activation-behavior target list target
exactly `n` elements?  (The multi-row exclusivity the spec expects would make
this true with `n` = the number of records.) -/
def rowTargetsAllIds (out : List Json) (n : Nat) : Bool :=
  out.all (fun node =>
    match rowTargets node with
    | some (.arr ts) => ts.toList.length = n
    | _ => true)

/-- How many targets of the list are set visible. -/
def visibleCount (targets : List Json) : Nat :=
  targets.countP (fun t => t.getKey "isVisible" = some (.bool true))

/-- The footer scan of `inject_task_sections_into_card` never iterates a
non-iterable `items` value (which would raise in Python). -/
def footerScanOk (body : List Json) : Bool :=
  body.all (fun it =>
    match it with
    | .obj fs =>
      if fs.get "type" = some (.str "Container") then
        match fs.get "items" with
        | some (.num _) => false
        | some (.bool _) => false
        | some .null => false
        | _ => true
      else true
    | _ => true)

/-- A string as the resolver sees it: literal runs and `{{...}}` tokens. -/
inductive TokPiece where
  | lit (s : String)
  | tok (p : String)

/-- The concrete text of a piece. -/
def renderPiece : TokPiece → List Char
  | .lit s => s.data
  | .tok p => '{' :: '{' :: (p.data ++ ['}', '}'])

/-- What the resolver leaves for a piece: literals unchanged, tokens replaced
by their rendered resolution or kept verbatim on a caught failure. -/
def resolvedPiece (data : Json) : TokPiece → List Char
  | .lit s => s.data
  | .tok p =>
    match resolvePlaceholder data p.data with
    | .ok (some v) => v.data
    | _ => '{' :: '{' :: (p.data ++ ['}', '}'])

/-- Pieces the scan lemma covers: literals without brace characters, tokens
that are nonempty, brace-free, and whose resolution does not raise (i.e. any
failure is of the caught `KeyError`/`IndexError`/`TypeError` kind). -/
def pieceOk (data : Json) : TokPiece → Prop
  | .lit s => ∀ c ∈ s.data, c ≠ '{' ∧ c ≠ '}'
  | .tok p =>
    p.data ≠ [] ∧ (∀ c ∈ p.data, c ≠ '{' ∧ c ≠ '}') ∧
      resolvePlaceholder data p.data ≠ .error ()

/- ######################################################################
   THEOREMS
   ###################################################################### -/

theorem decDigitVal_decDigit {d : Nat} (h : d < 10) : decDigitVal (decDigit d) = d := by
  interval_cases d <;> decide

theorem decValOfChars_append_digit (cs : List Char) (c : Char) :
    decValOfChars (cs ++ [c]) = decValOfChars cs * 10 + decDigitVal c := by
  simp [decValOfChars, List.foldl_append]

theorem decChars_val : ∀ fuel n, n < fuel → decValOfChars (decChars fuel n) = n := by
  intro fuel
  induction fuel with
  | zero => intro n h; omega
  | succ f ih =>
    intro n h
    by_cases h10 : n < 10
    · simp [decChars, h10, decValOfChars, decDigitVal_decDigit h10]
    · have hdiv : n / 10 < n := Nat.div_lt_self (by omega) (by omega)
      simp only [decChars, if_neg h10, decValOfChars_append_digit]
      rw [ih (n / 10) (by omega)]
      rw [decDigitVal_decDigit (Nat.mod_lt _ (by omega))]
      omega

theorem natToDec_injective : Function.Injective natToDec := by
  intro m n h
  have hd : decChars (m + 1) m = decChars (n + 1) n := congrArg String.data h
  have := decChars_val (m + 1) m (by omega)
  rw [hd, decChars_val (n + 1) n (by omega)] at this
  omega

theorem detailsIdStr_injective : Function.Injective detailsIdStr := by
  intro i j h
  have hd : ("details".data ++ (natToDec (i + 1)).data)
      = ("details".data ++ (natToDec (j + 1)).data) := by
    simpa [detailsIdStr, String.data_append] using congrArg String.data h
  have h2 : (natToDec (i + 1)).data = (natToDec (j + 1)).data :=
    List.append_cancel_left hd
  have h3 : natToDec (i + 1) = natToDec (j + 1) := by
    cases hm : natToDec (i + 1); cases hn : natToDec (j + 1)
    simp_all
  have := natToDec_injective h3
  omega

theorem detailsIds_nodup (n : Nat) : ((List.range n).map detailsIdStr).Nodup :=
  (List.nodup_range n).map detailsIdStr_injective

theorem flatMap_range_const_length (f : Nat → List Json) (c : Nat)
    (hf : ∀ i, (f i).length = c) : ∀ n, ((List.range n).flatMap f).length = n * c := by
  intro n
  induction n with
  | zero => simp
  | succ m ih =>
    rw [List.range_succ, List.flatMap_append]
    simp [ih, hf m, Nat.succ_mul]

/-- C1: for every TableFragment (header and row template present, details
template optional) and every record list of length N ≥ 0, the fragment
multiplier `generate_task_sections` returns exactly `1 + 2N` nodes when a
details template exists and `1 + N` nodes otherwise, the generated details
identifiers `details1..detailsN` are pairwise distinct, and for N = 0 the
result is the single header node with no rows injected. -/
theorem c1_fragment_multiplier (h r : Json) (dOpt : Option Json) (tasks : List Json) :
    (∀ dd, dOpt = some dd →
      (generate_task_sections (some ⟨some h, some r, dOpt⟩) tasks).length
        = 1 + 2 * tasks.length) ∧
    (dOpt = none →
      (generate_task_sections (some ⟨some h, some r, dOpt⟩) tasks).length
        = 1 + tasks.length) ∧
    ((List.range tasks.length).map detailsIdStr).Nodup ∧
    (tasks = [] → generate_task_sections (some ⟨some h, some r, dOpt⟩) tasks = [h]) := by
  refine ⟨?_, ?_, detailsIds_nodup tasks.length, ?_⟩
  · intro dd hdd
    subst hdd
    simp only [generate_task_sections, List.length_append, List.length_cons, List.length_nil]
    rw [flatMap_range_const_length _ 2 (fun i => by simp) tasks.length]
    omega
  · intro hdd
    subst hdd
    simp only [generate_task_sections, List.length_append, List.length_cons, List.length_nil]
    rw [flatMap_range_const_length _ 1 (fun i => by simp) tasks.length]
    omega
  · intro ht
    subst ht
    cases dOpt <;> simp [generate_task_sections]

/-- Witness for C1 at a concrete fragment: two records with a details
template give five nodes, and zero records give exactly the header. -/
theorem c1_fragment_multiplier_witness :
    (generate_task_sections
      (some ⟨some (jstr "H"), some (jobj [("type", jstr "Container")]),
             some (jobj [("id", jstr "details1")])⟩)
      [jobj [("type", jstr "agreement")], jobj [("type", jstr "issue")]]).length
      = 1 + 2 * 2 ∧
    generate_task_sections
      (some ⟨some (jstr "H"), some (jobj [("type", jstr "Container")]),
             some (jobj [("id", jstr "details1")])⟩) [] = [jstr "H"] :=
  ⟨(c1_fragment_multiplier (jstr "H") (jobj [("type", jstr "Container")])
      (some (jobj [("id", jstr "details1")]))
      [jobj [("type", jstr "agreement")], jobj [("type", jstr "issue")]]).1
      (jobj [("id", jstr "details1")]) rfl,
   (c1_fragment_multiplier (jstr "H") (jobj [("type", jstr "Container")])
      (some (jobj [("id", jstr "details1")])) []).2.2.2 rfl⟩


theorem findTableStructure_none :
    ∀ fuel, (∀ v, iterValOk fuel v = true → findTableStructure () fuel v = .ok none) ∧
      (∀ items, iterItemsOk fuel items = true →
        findTableStructureItems () fuel items = .ok none) := by
  intro fuel
  induction fuel with
  | zero => exact ⟨fun v _ => rfl, fun items _ => rfl⟩
  | succ f ih =>
    refine ⟨?_, ?_⟩
    · intro v h
      simp only [iterValOk] at h
      cases hit : pyIterList v with
      | error e => rw [hit] at h; cases h
      | ok items =>
        rw [hit] at h
        simp only [findTableStructure, hit]
        exact ih.2 items h
    · intro items h
      cases items with
      | nil => rfl
      | cons item rest =>
        cases item with
        | obj fs =>
          simp only [iterItemsOk, Bool.and_eq_true] at h
          obtain ⟨⟨hi, hb⟩, hrest⟩ := h
          simp only [findTableStructureItems]
          cases hgi : fs.get "items" with
          | none =>
            cases hgb : fs.get "body" with
            | none =>
              simp only [hgi, hgb]
              simpa [truthyFrag] using ih.2 rest hrest
            | some w =>
              rw [hgb] at hb
              simp only [hgi, hgb, ih.1 w (by simpa using hb)]
              simpa [truthyFrag] using ih.2 rest hrest
          | some v =>
            rw [hgi] at hi
            cases hgb : fs.get "body" with
            | none =>
              simp only [hgi, hgb, ih.1 v (by simpa using hi)]
              simpa [truthyFrag] using ih.2 rest hrest
            | some w =>
              rw [hgb] at hb
              simp only [hgi, hgb, ih.1 v (by simpa using hi), ih.1 w (by simpa using hb)]
              simpa [truthyFrag] using ih.2 rest hrest
        | str s =>
          simp only [iterItemsOk, Bool.and_eq_true] at h
          exact ih.2 rest h.2
        | num n =>
          simp only [iterItemsOk, Bool.and_eq_true] at h
          exact ih.2 rest h.2
        | bool b =>
          simp only [iterItemsOk, Bool.and_eq_true] at h
          exact ih.2 rest h.2
        | null =>
          simp only [iterItemsOk, Bool.and_eq_true] at h
          exact ih.2 rest h.2
        | arr xs =>
          simp only [iterItemsOk, Bool.and_eq_true] at h
          exact ih.2 rest h.2

theorem findTableStructure_never_some :
    ∀ fuel, (∀ v r, findTableStructure () fuel v = .ok r → r = none) ∧
      (∀ items r, findTableStructureItems () fuel items = .ok r → r = none) := by
  intro fuel
  induction fuel with
  | zero =>
    refine ⟨?_, ?_⟩
    · intro v r h
      have : (Except.ok none : Except Unit (Option (List Json))) = .ok r := h
      simpa using (Except.ok.inj this).symm
    · intro items r h
      have : (Except.ok none : Except Unit (Option (List Json))) = .ok r := h
      simpa using (Except.ok.inj this).symm
  | succ f ih =>
    refine ⟨?_, ?_⟩
    · intro v r h
      simp only [findTableStructure] at h
      cases hit : pyIterList v with
      | error e => rw [hit] at h; cases h
      | ok items =>
        rw [hit] at h
        exact ih.2 items r h
    · intro items r h
      cases items with
      | nil => simpa using (Except.ok.inj h).symm
      | cons item rest =>
        cases item with
        | obj fs =>
          simp only [findTableStructureItems] at h
          cases hgi : fs.get "items" with
          | none =>
            simp only [hgi, truthyFrag] at h
            cases hgb : fs.get "body" with
            | none =>
              simp only [hgb, truthyFrag] at h
              exact ih.2 rest r h
            | some w =>
              simp only [hgb] at h
              cases hw : findTableStructure () f w with
              | error e => simp [hw] at h
              | ok r2 =>
                have hr2 : r2 = none := ih.1 w r2 hw
                subst hr2
                simp only [hw, truthyFrag] at h
                exact ih.2 rest r h
          | some v =>
            simp only [hgi] at h
            cases hv : findTableStructure () f v with
            | error e => simp [hv] at h
            | ok r1 =>
              have hr1 : r1 = none := ih.1 v r1 hv
              subst hr1
              simp only [hv, truthyFrag] at h
              cases hgb : fs.get "body" with
              | none =>
                simp only [hgb, truthyFrag] at h
                exact ih.2 rest r h
              | some w =>
                simp only [hgb] at h
                cases hw : findTableStructure () f w with
                | error e => simp [hw] at h
                | ok r2 =>
                  have hr2 : r2 = none := ih.1 w r2 hw
                  subst hr2
                  simp only [hw, truthyFrag] at h
                  exact ih.2 rest r h
        | str s => exact ih.2 rest r h
        | num n => exact ih.2 rest r h
        | bool b => exact ih.2 rest r h
        | null => exact ih.2 rest r h
        | arr xs => exact ih.2 rest r h

/-- The extractor can never produce a fragment, for any input whatsoever:
the source's `find_table_structure` fills a local accumulator it never
returns, so the `len >= 2` success branch of
`extract_task_section_template` is unreachable. -/
theorem extract_never_fragment (fuel : Nat) (t : Json) (tpl : TaskTemplate) :
    extract_task_section_template fuel t ≠ .ok (some tpl) := by
  intro h
  cases t with
  | obj fs =>
    simp only [extract_task_section_template] at h
    cases hf : findTableStructure () fuel ((fs.get "body").getD (.arr .nil)) with
    | error e => rw [hf] at h; cases h
    | ok r =>
      have : r = none := (findTableStructure_never_some fuel).1 _ r hf
      subst this
      rw [hf] at h
      cases h
  | str s => cases h
  | num n => cases h
  | bool b => cases h
  | null => cases h
  | arr xs => cases h

/-- C4: for every full template in which no header candidate is immediately
followed, in the same sibling list, by a row candidate satisfying the
extractor's predicate, `extract_task_section_template` returns NotFound
(`None`) and never a synthesized or partially-filled fragment.  The
traversal hypothesis `iterValOk` supplies enough fuel and excludes the
templates on which the Python scan would raise `TypeError`; the
never-a-fragment half in fact holds for every template
(`extract_never_fragment`). -/
theorem c4_extract_fails_closed (fuel : Nat) (fs : JObj)
    (hwf : iterValOk fuel ((fs.get "body").getD (.arr .nil)) = true)
    (hadj : Json.adjacencyFree (.obj fs) = true) :
    extract_task_section_template fuel (.obj fs) = .ok none := by
  simp only [extract_task_section_template]
  rw [(findTableStructure_none fuel).1 _ hwf]

/-- Witness for C4: a concrete template, free of header/row adjacencies,
on which the extractor returns NotFound. -/
theorem c4_extract_fails_closed_witness :
    extract_task_section_template 5
      (.obj (JObj.ofList [("body", jarr [jobj [("type", jstr "TextBlock")]])])) = .ok none ∧
    Json.adjacencyFree
      (.obj (JObj.ofList [("body", jarr [jobj [("type", jstr "TextBlock")]])])) = true :=
  ⟨c4_extract_fails_closed 5 (JObj.ofList [("body", jarr [jobj [("type", jstr "TextBlock")]])])
      (by decide) (by decide),
   by decide⟩

theorem pyInsert_nat (l : List Json) (x : Json) (q : Nat) (hq : q ≤ l.length) :
    pyInsert l (q : Int) x = l.take q ++ x :: l.drop q := by
  have hmin : (if (q : Int) < 0 then max 0 ((l.length : Int) + q)
      else min (q : Int) (l.length : Int)).toNat = q := by
    rw [if_neg (by omega)]
    omega
  simp only [pyInsert, hmin]

theorem insertAllFrom_splice :
    ∀ (sections : List Json) (q : Nat) (body : List Json), q ≤ body.length →
      insertAllFrom (q : Int) sections body = body.take q ++ sections ++ body.drop q := by
  intro sections
  induction sections with
  | nil => intro q body hq; simp [insertAllFrom]
  | cons s rest ih =>
    intro q body hq
    simp only [insertAllFrom]
    rw [pyInsert_nat body s q hq]
    have hlen : (body.take q).length = q := by rw [List.length_take]; omega
    have hlen2 : (body.take q ++ [s]).length = q + 1 := by simp [hlen]
    have hlen3 : (body.take q ++ s :: body.drop q).length = body.length + 1 := by
      simp only [List.length_append, List.length_cons, hlen, List.length_drop]
      omega
    have hcast : ((q : Int) + 1) = ((q + 1 : Nat) : Int) := by push_cast; ring
    rw [hcast, ih (q + 1) (body.take q ++ s :: body.drop q) (by rw [hlen3]; omega)]
    have hsplit : body.take q ++ s :: body.drop q = (body.take q ++ [s]) ++ body.drop q := by
      simp
    rw [hsplit]
    have ht : ((body.take q ++ [s]) ++ body.drop q).take (q + 1) = body.take q ++ [s] := by
      rw [← hlen2]
      exact List.take_left _ _
    have hd : ((body.take q ++ [s]) ++ body.drop q).drop (q + 1) = body.drop q := by
      rw [← hlen2]
      exact List.drop_left _ _
    rw [ht, hd]
    simp

theorem foldl_last_wins {α β : Type} (P : α → Bool) (g : α → β) :
    ∀ (l : List α) (init : β),
      l.foldl (fun acc x => if P x then g x else acc) init
        = match (l.filter P).getLast? with
          | some x => g x
          | none => init := by
  intro l
  induction l using List.reverseRecOn with
  | nil => intro init; rfl
  | append_singleton l a ih =>
    intro init
    rw [List.foldl_append]
    cases hPa : P a with
    | true => simp [hPa, List.filter_append, List.filter_cons, List.getLast?_concat]
    | false =>
      simp only [List.foldl_cons, List.foldl_nil, hPa, Bool.false_eq_true, if_false,
        List.filter_append, List.filter_cons, List.filter_nil, List.append_nil]
      exact ih init

/-- Without any footer-marked container the insertion index defaults to
`len(body) - 1`. -/
theorem insertionIndexOf_of_no_footer (body : List Json)
    (h : (body.enum.filter (fun p => isFooterContainer p.2)).getLast? = none) :
    insertionIndexOf body = (body.length : Int) - 1 := by
  simp only [insertionIndexOf]
  rw [foldl_last_wins, h]

/-- With footer-marked containers present, the insertion index is the
position of the LAST one (the loop overwrites it at every match). -/
theorem insertionIndexOf_of_footer (body : List Json) (p : Nat × Json)
    (h : (body.enum.filter (fun q => isFooterContainer q.2)).getLast? = some p) :
    insertionIndexOf body = (p.1 : Int) := by
  simp only [insertionIndexOf]
  rw [foldl_last_wins, h]

/-- On a well-formed body every item's scan step succeeds and returns exactly
the total footer predicate. -/
theorem footerScanItem_sound (body : List Json) (h : footerScanOk body = true) :
    ∀ it ∈ body, footerScanItem it = .ok (isFooterContainer it) := by
  intro it hit
  have hp := (List.all_eq_true.mp h) it hit
  cases it with
  | str s => rfl
  | num n => rfl
  | bool b => rfl
  | null => rfl
  | arr xs => rfl
  | obj fs =>
    by_cases hty : fs.get "type" = some (.str "Container")
    · simp only [if_pos hty] at hp
      simp only [footerScanItem, isFooterContainer, if_pos hty, hty, decide_True,
        Bool.true_and]
      cases hitems : fs.get "items" with
      | none => simp
      | some v =>
        cases v with
        | str s => simp
        | num n => rw [hitems] at hp; simp at hp
        | bool b => rw [hitems] at hp; simp at hp
        | null => rw [hitems] at hp; simp at hp
        | arr xs => simp
        | obj gs => simp
    · simp [footerScanItem, isFooterContainer, hty]

/-- On a body violating `footerScanOk` some item's scan step raises. -/
theorem footerScanItem_raises (body : List Json) (h : footerScanOk body = false) :
    ∃ it ∈ body, footerScanItem it = .error () := by
  obtain ⟨it, hit, hp⟩ := List.all_eq_false.mp h
  refine ⟨it, hit, ?_⟩
  cases it with
  | str s => exact absurd rfl hp
  | num n => exact absurd rfl hp
  | bool b => exact absurd rfl hp
  | null => exact absurd rfl hp
  | arr xs => exact absurd rfl hp
  | obj fs =>
    by_cases hty : fs.get "type" = some (.str "Container")
    · simp only [if_pos hty] at hp
      simp only [footerScanItem, if_pos hty]
      cases hitems : fs.get "items" with
      | none => rw [hitems] at hp; exact absurd rfl hp
      | some v =>
        cases v with
        | str s => rw [hitems] at hp; exact absurd rfl hp
        | num n => rfl
        | bool b => rfl
        | null => rfl
        | arr xs => rw [hitems] at hp; exact absurd rfl hp
        | obj gs => rw [hitems] at hp; exact absurd rfl hp
    · simp only [if_neg hty] at hp
      exact absurd trivial hp

theorem footerScanE_ok : ∀ (l : List (Nat × Json)) (acc : Int),
    (∀ p ∈ l, footerScanItem p.2 = .ok (isFooterContainer p.2)) →
    footerScanE l acc = .ok (l.foldl
      (fun acc p => if isFooterContainer p.2 then (p.1 : Int) else acc) acc)
  | [], acc, h => rfl
  | p :: rest, acc, h => by
    simp only [footerScanE, h p (List.mem_cons_self _ _), List.foldl_cons]
    exact footerScanE_ok rest _ (fun q hq => h q (List.mem_cons_of_mem _ hq))

theorem footerScanE_raises : ∀ (l : List (Nat × Json)) (acc : Int) (p : Nat × Json),
    p ∈ l → footerScanItem p.2 = .error () → footerScanE l acc = .error ()
  | [], _, p, hp, _ => absurd hp (List.not_mem_nil p)
  | q :: rest, acc, p, hp, herr => by
    simp only [footerScanE]
    cases hq : footerScanItem q.2 with
    | error e => rfl
    | ok b =>
      rcases List.mem_cons.mp hp with hpq | hp2
      · subst hpq
        rw [hq] at herr
        exact Except.noConfusion herr
      · exact footerScanE_raises rest _ p hp2 herr

/-- On a well-formed body the raising scan succeeds and computes exactly the
insertion index of the non-raising model. -/
theorem insertionIndexE_of_ok {body : List Json} (h : footerScanOk body = true) :
    insertionIndexE body = .ok (insertionIndexOf body) := by
  unfold insertionIndexE insertionIndexOf
  apply footerScanE_ok
  intro p hp
  exact footerScanItem_sound body h p.2 (List.snd_mem_of_mem_enumFrom hp)

/-- On a body with a non-iterable truthy `items` value the Python scan raises
`TypeError` instead of splicing. -/
theorem insertionIndexE_raises {body : List Json} (h : footerScanOk body = false) :
    insertionIndexE body = .error () := by
  obtain ⟨it, hit, herr⟩ := footerScanItem_raises body h
  obtain ⟨i, hi⟩ := List.mem_iff_getElem?.mp hit
  unfold insertionIndexE
  exact footerScanE_raises body.enum _ (i, it)
    (List.mk_mem_enum_iff_getElem?.mpr (by rw [hi])) herr

/-- C6 (amended): on bodies whose footer scan does not raise (`footerScanOk`:
no `Container` carries a `null`, numeric or boolean `items` value — otherwise
Python raises `TypeError`, `insertionIndexE_raises`), the composer splices the
multiplied nodes immediately before the LAST footer-marked region (container
holding an ActionSet), defaulting to just before the final body element when
no footer marker exists, preserving the original skeleton order on both
sides; the raising scan computes exactly this splice index.  (The source loop
has no break: every later footer container overwrites the insertion index, so
with several footer regions the first is NOT the splice point — see the
counterexample.) -/
theorem c6_splice_before_last_footer (fs : JObj) (xs : JArr) (sections : List Json) (q : Nat)
    (hwf : footerScanOk xs.toList = true)
    (hbody : fs.get "body" = some (.arr xs))
    (hq : insertionIndexOf xs.toList = (q : Int))
    (hle : q ≤ xs.toList.length) :
    insertionIndexE xs.toList = .ok (q : Int) ∧
    inject_task_sections_into_card (.obj fs) sections
      = .obj (fs.set "body" (.arr (JArr.ofList
          (xs.toList.take q ++ sections ++ xs.toList.drop q)))) ∧
    ((xs.toList.enum.filter (fun p => isFooterContainer p.2)).getLast? = none →
      insertionIndexOf xs.toList = (xs.toList.length : Int) - 1) ∧
    (∀ p, (xs.toList.enum.filter (fun r => isFooterContainer r.2)).getLast? = some p →
      insertionIndexOf xs.toList = (p.1 : Int)) := by
  refine ⟨?_, ?_, insertionIndexOf_of_no_footer xs.toList, insertionIndexOf_of_footer xs.toList⟩
  · rw [insertionIndexE_of_ok hwf, hq]
  · simp only [inject_task_sections_into_card, hbody]
    rw [hq, insertAllFrom_splice sections q xs.toList hle]

/-- Witness for C6 at the spec's §8 scenario shape: a skeleton with a header
and a single footer-marked container, spliced with a header node and three
row/details pairs; the footer stays last and the pairs sit before it in
input order. -/
theorem c6_splice_before_last_footer_witness :
    inject_task_sections_into_card
      (.obj (JObj.ofList [("body", jarr
        [jobj [("type", jstr "ColumnSet")],
         jobj [("type", jstr "Container"), ("items", jarr [jobj [("type", jstr "ActionSet")]])]])]))
      [jstr "H", jstr "R1", jstr "D1", jstr "R2", jstr "D2", jstr "R3", jstr "D3"]
      = .obj ((JObj.ofList [("body", jarr
          [jobj [("type", jstr "ColumnSet")],
           jobj [("type", jstr "Container"), ("items", jarr [jobj [("type", jstr "ActionSet")]])]])]).set "body"
          (.arr (JArr.ofList
            ([jobj [("type", jstr "ColumnSet")]] ++
             [jstr "H", jstr "R1", jstr "D1", jstr "R2", jstr "D2", jstr "R3", jstr "D3"] ++
             [jobj [("type", jstr "Container"), ("items", jarr [jobj [("type", jstr "ActionSet")]])]])))) := by
  have h := (c6_splice_before_last_footer
    (JObj.ofList [("body", jarr
      [jobj [("type", jstr "ColumnSet")],
       jobj [("type", jstr "Container"), ("items", jarr [jobj [("type", jstr "ActionSet")]])]])])
    (JArr.ofList
      [jobj [("type", jstr "ColumnSet")],
       jobj [("type", jstr "Container"), ("items", jarr [jobj [("type", jstr "ActionSet")]])]])
    [jstr "H", jstr "R1", jstr "D1", jstr "R2", jstr "D2", jstr "R3", jstr "D3"]
    1 (by decide) (by decide) (by decide) (by decide)).2.1
  exact h

/-- C6 counterexample: with TWO footer-marked containers the injector does
not splice before the first one (it splices before the last), so the claim
as stated fails on this skeleton. -/
theorem c6_first_footer_counterexample :
    inject_task_sections_into_card
      (jobj [("body", jarr
        [jobj [("type", jstr "Container"), ("items", jarr [jobj [("type", jstr "ActionSet")]])],
         jstr "plain",
         jobj [("type", jstr "Container"), ("id", jstr "B"),
               ("items", jarr [jobj [("type", jstr "ActionSet")]])],
         jstr "last"])])
      [jstr "S"]
      ≠ jobj [("body", jarr (specInjectFirstFooter
          [jobj [("type", jstr "Container"), ("items", jarr [jobj [("type", jstr "ActionSet")]])],
           jstr "plain",
           jobj [("type", jstr "Container"), ("id", jstr "B"),
                 ("items", jarr [jobj [("type", jstr "ActionSet")]])],
           jstr "last"]
          [jstr "S"]))] := by
  decide

theorem JObj.get_set_self : ∀ (fs : JObj) (k : String) (v : Json),
    (fs.set k v).get k = some v
  | .nil, k, v => by simp [JObj.set, JObj.get]
  | .cons k' v' tl, k, v => by
    by_cases hk : k' = k
    · simp [JObj.set, JObj.get, hk]
    · simp [JObj.set, JObj.get, hk, JObj.get_set_self tl k v]

theorem JObj.get_set_ne : ∀ (fs : JObj) (k k' : String) (v : Json), k' ≠ k →
    (fs.set k v).get k' = fs.get k'
  | .nil, k, k', v, h => by
    simp [JObj.set, JObj.get]
    intro hc
    exact absurd hc.symm h
  | .cons k0 v0 tl, k, k', v, h => by
    by_cases hk : k0 = k
    · subst hk
      have hne : ¬ (k0 = k') := fun hc => h hc.symm
      simp [JObj.set, JObj.get, hne]
    · simp only [JObj.set, if_neg hk, JObj.get]
      by_cases hk' : k0 = k'
      · simp [hk']
      · simp [hk', JObj.get_set_ne tl k k' v h]

theorem JObj.get_fixRowToggle (did : String) : ∀ (fs : JObj) (k : String),
    (fs.fixRowToggle did).get k = (fs.get k).map (Json.fixRowToggle did)
  | .nil, k => by simp [JObj.fixRowToggle, JObj.get]
  | .cons k' v tl, k => by
    by_cases hk : k' = k
    · simp [JObj.fixRowToggle, JObj.get, hk]
    · simp [JObj.fixRowToggle, JObj.get, hk, JObj.get_fixRowToggle did tl k]

theorem fixRowToggle_obj_shape (did : String) (sa : JObj) :
    ∃ sa2, Json.fixRowToggle did (.obj sa) = .obj sa2 := by
  simp only [Json.fixRowToggle]
  repeat' first
    | exact ⟨_, rfl⟩
    | split

/-- C3 (amended): the tasks-assigned composer applies only SINGLE-target
disclosure wiring: `_fix_row_toggle_action` rewrites each multiplied row's
activation behavior to target exactly its own details identifier — length-1
target list — and no multi-row exclusivity pass exists in this pipeline. -/
theorem c3_single_target_wiring (did : String) (fs sa : JObj)
    (hsa : fs.get "selectAction" = some (.obj sa))
    (htype : sa.get "type" = some (.str "Action.ToggleVisibility")) :
    rowTargets (Json.fixRowToggle did (.obj fs)) = some (singleTargetList did) := by
  obtain ⟨sa2, hsa2⟩ := fixRowToggle_obj_shape did sa
  have hp : (fs.fixRowToggle did).get "selectAction" = some (.obj sa2) := by
    rw [JObj.get_fixRowToggle, hsa, Option.map_some', hsa2]
  simp only [Json.fixRowToggle, hsa, htype, if_pos, hp]
  simp only [rowTargets, Json.getKey, Option.some_bind, JObj.get_set_self]

/-- Witness for C3's amended statement at a concrete row container. -/
theorem c3_single_target_wiring_witness :
    rowTargets (Json.fixRowToggle "details7"
      (.obj (JObj.ofList
        [("type", jstr "Container"),
         ("selectAction", jobj
           [("type", jstr "Action.ToggleVisibility"),
            ("targetElements", jarr [jobj [("elementId", jstr "details1")]])])])))
      = some (singleTargetList "details7") :=
  c3_single_target_wiring "details7"
    (JObj.ofList
      [("type", jstr "Container"),
       ("selectAction", jobj
         [("type", jstr "Action.ToggleVisibility"),
          ("targetElements", jarr [jobj [("elementId", jstr "details1")]])])])
    (JObj.ofList
      [("type", jstr "Action.ToggleVisibility"),
       ("targetElements", jarr [jobj [("elementId", jstr "details1")]])])
    (by decide) (by decide)

/-- C3 counterexample: with two records, the multiplied document's first row
targets only its own `details1` (a single-element target list), so it does
NOT target all N = 2 details identifiers as the claim states. -/
theorem c3_counterexample :
    rowTargetsAllIds
      (generate_task_sections
        (some ⟨some (jobj [("type", jstr "ColumnSet")]),
               some (jobj
                 [("type", jstr "Container"),
                  ("selectAction", jobj
                    [("type", jstr "Action.ToggleVisibility"),
                     ("targetElements", jarr [jobj [("elementId", jstr "details1")]])])]),
               some (jobj [("type", jstr "Container"), ("id", jstr "details1")])⟩)
        [jobj [], jobj []]) 2 = false ∧
    (generate_task_sections
        (some ⟨some (jobj [("type", jstr "ColumnSet")]),
               some (jobj
                 [("type", jstr "Container"),
                  ("selectAction", jobj
                    [("type", jstr "Action.ToggleVisibility"),
                     ("targetElements", jarr [jobj [("elementId", jstr "details1")]])])]),
               some (jobj [("type", jstr "Container"), ("id", jstr "details1")])⟩)
        [jobj [], jobj []]).length = 5 := by
  constructor
  · decide
  · decide

theorem get?_set_ne' (l : List Json) (i j : Nat) (x : Json) (h : i ≠ j) :
    (l.set i x).get? j = l.get? j := by
  simp [List.get?_eq_getElem?, List.getElem?_set_ne h]

theorem get?_set_self' (l : List Json) (i : Nat) (x : Json) (h : i < l.length) :
    (l.set i x).get? i = some x := by
  simp [List.get?_eq_getElem?, List.getElem?_set_self, h]

theorem wireFold_length (ids : List String) :
    ∀ (n : Nat) (items : List Json),
      ((List.range n).foldl
        (fun acc q =>
          match acc.get? (2 * q) with
          | some row => acc.set (2 * q) (wireRowExclusive ids (ids.getD q "") row)
          | none => acc) items).length = items.length := by
  intro n
  induction n with
  | zero => intro items; rfl
  | succ m ih =>
    intro items
    rw [List.range_succ, List.foldl_append, List.foldl_cons, List.foldl_nil]
    split
    · rw [List.length_set]; exact ih items
    · exact ih items

theorem wireFold_get_high (ids : List String) :
    ∀ (n : Nat) (items : List Json) (j : Nat), 2 * n ≤ j →
      ((List.range n).foldl
        (fun acc q =>
          match acc.get? (2 * q) with
          | some row => acc.set (2 * q) (wireRowExclusive ids (ids.getD q "") row)
          | none => acc) items).get? j = items.get? j := by
  intro n
  induction n with
  | zero => intro items j _; rfl
  | succ m ih =>
    intro items j hj
    rw [List.range_succ, List.foldl_append, List.foldl_cons, List.foldl_nil]
    split
    · rw [get?_set_ne' _ _ _ _ (by omega)]
      exact ih items j (by omega)
    · exact ih items j (by omega)

theorem wireFold_get_row (ids : List String) :
    ∀ (n : Nat) (items : List Json) (r : Nat), r < n → 2 * r < items.length →
      ((List.range n).foldl
        (fun acc q =>
          match acc.get? (2 * q) with
          | some row => acc.set (2 * q) (wireRowExclusive ids (ids.getD q "") row)
          | none => acc) items).get? (2 * r)
        = (items.get? (2 * r)).map (wireRowExclusive ids (ids.getD r "")) := by
  intro n
  induction n with
  | zero => intro items r hr; omega
  | succ m ih =>
    intro items r hr hlen
    rw [List.range_succ, List.foldl_append, List.foldl_cons, List.foldl_nil]
    by_cases hrm : r < m
    · split
      · rw [get?_set_ne' _ _ _ _ (by omega)]
        exact ih items r hrm hlen
      · exact ih items r hrm hlen
    · have hre : r = m := by omega
      subst hre
      have hhigh := wireFold_get_high ids r items (2 * r) (by omega)
      have hflen := wireFold_length ids r items
      split
      · next row hacc =>
          rw [hacc] at hhigh
          rw [get?_set_self' _ _ _ (by omega), ← hhigh]
          rfl
      · next hacc =>
          rw [hacc] at hhigh
          cases hitem : items.get? (2 * r) with
          | none =>
            have := List.get?_eq_none.mp hitem
            omega
          | some row =>
            rw [hitem] at hhigh
            cases hhigh

theorem upcomingRowsAndDetails_eq (tasks : List Json) :
    upcomingRowsAndDetails tasks
      = (List.range tasks.length).flatMap
          (fun i => [build_task_row_from_reference (tasks.getD i .null) (detailsIdStr i),
                     build_task_details_from_reference (tasks.getD i .null) (detailsIdStr i)]) := by
  simp only [upcomingRowsAndDetails, List.flatMap]
  rw [List.map_congr_left]
  intro i hi
  have hlt : i < tasks.length := List.mem_range.mp hi
  cases hti : tasks.get? i with
  | none =>
    exfalso
    have := List.get?_eq_none.mp hti
    omega
  | some t =>
    have hgd : tasks.getD i Json.null = t := by
      simp [List.getD, ← List.get?_eq_getElem?, hti]
    rw [hgd]

theorem flatMap_pairs_get (f g : Nat → Json) :
    ∀ (n r : Nat), r < n →
      ((List.range n).flatMap (fun i => [f i, g i])).get? (2 * r) = some (f r) := by
  intro n
  induction n with
  | zero => intro r hr; omega
  | succ m ih =>
    intro r hr
    rw [List.range_succ, List.flatMap_append]
    have hlen : ((List.range m).flatMap (fun i => [f i, g i])).length = m * 2 :=
      flatMap_range_const_length _ 2 (by simp) m
    by_cases hrm : r < m
    · rw [List.get?_append (by rw [hlen]; omega)]
      exact ih r hrm
    · have hre : r = m := by omega
      subst hre
      rw [List.get?_append_right (by rw [hlen]; omega)]
      rw [hlen]
      have hz : 2 * r - r * 2 = 0 := by omega
      rw [hz]
      simp

theorem rowTargets_wireRowExclusive (ids : List String) (did : String) (fs : JObj) :
    rowTargets (wireRowExclusive ids did (.obj fs)) = some (exclusiveTargets ids did) := by
  simp only [wireRowExclusive]
  split <;>
    simp [rowTargets, Json.getKey, JObj.get_set_self, Option.some_bind]

theorem upcomingDetailsIds_getD (tasks : List Json) (r : Nat) (hr : r < tasks.length) :
    (upcomingDetailsIds tasks).getD r "" = detailsIdStr r := by
  simp [upcomingDetailsIds, List.getD, List.get?_eq_getElem?, List.getElem?_range, hr]

theorem countP_eq_one_of_nodup_mem {l : List String} (hl : l.Nodup) {x : String} (hx : x ∈ l) :
    l.countP (fun o => o = x) = 1 := by
  induction l with
  | nil => cases hx
  | cons a tl ih =>
    rw [List.countP_cons]
    rcases List.mem_cons.mp hx with hax | hxtl
    · subst hax
      have hnotin : ∀ o ∈ tl, ¬ (o = x) := by
        intro o ho hox
        subst hox
        exact (List.nodup_cons.mp hl).1 ho
      rw [List.countP_eq_zero.mpr (by simpa using hnotin)]
      simp
    · have hax : ¬ (a = x) := by
        intro hc
        subst hc
        exact (List.nodup_cons.mp hl).1 hxtl
      rw [ih (List.nodup_cons.mp hl).2 hxtl]
      simp [hax]

theorem length_filter_ne_of_nodup {l : List String} (hl : l.Nodup) {x : String} (hx : x ∈ l) :
    (l.filter (fun o => o ≠ x)).length = l.length - 1 := by
  induction l with
  | nil => cases hx
  | cons a tl ih =>
    rcases List.mem_cons.mp hx with hax | hxtl
    · subst hax
      have hnotin : ∀ o ∈ tl, o ≠ x := by
        intro o ho hox
        subst hox
        exact (List.nodup_cons.mp hl).1 ho
      simp only [List.filter_cons]
      rw [if_neg (by simp)]
      rw [List.filter_eq_self.mpr (by simpa using hnotin)]
      simp
    · have hax : a ≠ x := by
        intro hc
        subst hc
        exact (List.nodup_cons.mp hl).1 hxtl
      simp only [List.filter_cons]
      rw [if_pos (by simpa using hax)]
      rw [List.length_cons, ih (List.nodup_cons.mp hl).2 hxtl]
      have : 1 ≤ tl.length := List.length_pos.mpr (List.ne_nil_of_mem hxtl)
      simp only [List.length_cons]
      omega

theorem getKey_isVisible_entry (other : String) (b : Bool) :
    (jobj [("elementId", jstr other), ("isVisible", jbool b)]).getKey "isVisible"
      = some (.bool b) := rfl

theorem getKey_elementId_entry (other : String) (b : Bool) :
    (jobj [("elementId", jstr other), ("isVisible", jbool b)]).getKey "elementId"
      = some (.str other) := rfl

/-- C2: for every N ≥ 1 and row position r < N, after exclusive-disclosure
wiring the element at index 2r (row r) of the rows-and-details list carries
an activation behavior whose target list is the complete-state list over all
generated details identifiers: length exactly N, exactly one entry visible,
and that entry is `detailsIds[r]`.  The message-service variant's per-row
target list (own id first, every other id invisible) satisfies the same three
properties. -/
theorem c2_exclusive_disclosure (tasks : List Json) (r : Nat) (hr : r < tasks.length) :
    ((wireExclusiveOpen (upcomingRowsAndDetails tasks) (upcomingDetailsIds tasks)).get? (2 * r)
        = some (wireRowExclusive (upcomingDetailsIds tasks) (detailsIdStr r)
            (build_task_row_from_reference (tasks.getD r .null) (detailsIdStr r))) ∧
      rowTargets (wireRowExclusive (upcomingDetailsIds tasks) (detailsIdStr r)
          (build_task_row_from_reference (tasks.getD r .null) (detailsIdStr r)))
        = some (exclusiveTargets (upcomingDetailsIds tasks) (detailsIdStr r))) ∧
    (∃ ts, exclusiveTargets (upcomingDetailsIds tasks) (detailsIdStr r) = jarr ts ∧
      ts.length = tasks.length ∧ visibleCount ts = 1 ∧
      ∀ t ∈ ts, t.getKey "isVisible" = some (.bool true) →
        t.getKey "elementId" = some (.str (detailsIdStr r))) ∧
    (∃ ts, singleDetailsTargets ((List.range tasks.length).map detailsIdStr) (detailsIdStr r)
        = jarr ts ∧
      ts.length = tasks.length ∧ visibleCount ts = 1 ∧
      ∀ t ∈ ts, t.getKey "isVisible" = some (.bool true) →
        t.getKey "elementId" = some (.str (detailsIdStr r))) := by
  have hidslen : (upcomingDetailsIds tasks).length = tasks.length := by
    simp [upcomingDetailsIds]
  have hitemslen : (upcomingRowsAndDetails tasks).length = tasks.length * 2 := by
    rw [upcomingRowsAndDetails_eq]
    exact flatMap_range_const_length _ 2 (by simp) _
  have hmem : detailsIdStr r ∈ upcomingDetailsIds tasks :=
    List.mem_map.mpr ⟨r, List.mem_range.mpr hr, rfl⟩
  have hnd : (upcomingDetailsIds tasks).Nodup := detailsIds_nodup tasks.length
  refine ⟨⟨?_, rowTargets_wireRowExclusive _ _ _⟩, ?_, ?_⟩
  · have hne : ¬ ((upcomingDetailsIds tasks).isEmpty = true) := by
      intro hcontra
      have hnil := List.isEmpty_iff.mp hcontra
      have hzero : (upcomingDetailsIds tasks).length = 0 := by rw [hnil]; rfl
      rw [hidslen] at hzero
      omega
    rw [wireExclusiveOpen, if_neg hne]
    rw [wireFold_get_row (upcomingDetailsIds tasks) (upcomingDetailsIds tasks).length
      (upcomingRowsAndDetails tasks) r (by rw [hidslen]; omega) (by rw [hitemslen]; omega)]
    rw [upcomingRowsAndDetails_eq, flatMap_pairs_get _ _ tasks.length r hr]
    rw [upcomingDetailsIds_getD tasks r hr]
    rfl
  · refine ⟨_, rfl, by simp [upcomingDetailsIds], ?_, ?_⟩
    · rw [visibleCount, List.countP_map]
      rw [List.countP_congr (q := fun o => o = detailsIdStr r) ?_]
      · exact countP_eq_one_of_nodup_mem hnd hmem
      · intro a _
        by_cases h : a = detailsIdStr r <;>
          simp [Function.comp, getKey_isVisible_entry, h]
    · intro t ht hvis
      obtain ⟨o, _, rfl⟩ := List.mem_map.mp ht
      rw [getKey_isVisible_entry] at hvis
      have : decide (o = detailsIdStr r) = true := by
        simpa using hvis
      have ho : o = detailsIdStr r := of_decide_eq_true this
      rw [getKey_elementId_entry, ho]
  · refine ⟨_, rfl, ?_, ?_, ?_⟩
    · have hflt : (((List.range tasks.length).map detailsIdStr).filter
          (fun did => did ≠ detailsIdStr r)).length = tasks.length - 1 := by
        have := length_filter_ne_of_nodup (detailsIds_nodup tasks.length)
          (List.mem_map.mpr ⟨r, List.mem_range.mpr hr, rfl⟩)
        simpa using this
      simp only [List.length_cons, List.length_map, hflt]
      omega
    · rw [visibleCount, List.countP_cons]
      rw [List.countP_map]
      rw [List.countP_eq_zero.mpr ?_]
      · simp [getKey_isVisible_entry]
      · intro a _
        simp [Function.comp, getKey_isVisible_entry]
    · intro t ht hvis
      rcases List.mem_cons.mp ht with hh | htl
      · subst hh
        rw [getKey_elementId_entry]
      · obtain ⟨o, _, rfl⟩ := List.mem_map.mp htl
        rw [getKey_isVisible_entry] at hvis
        cases hvis

/-- Witness for C2 at two concrete records: row 0 is wired with the
complete-state list and that list has exactly one visible entry. -/
theorem c2_exclusive_disclosure_witness :
    rowTargets (wireRowExclusive (upcomingDetailsIds [jobj [], jobj []]) (detailsIdStr 0)
        (build_task_row_from_reference ([jobj [], jobj []].getD 0 .null) (detailsIdStr 0)))
      = some (exclusiveTargets (upcomingDetailsIds [jobj [], jobj []]) (detailsIdStr 0)) ∧
    (∃ ts, exclusiveTargets (upcomingDetailsIds [jobj [], jobj []]) (detailsIdStr 0) = jarr ts ∧
      ts.length = 2 ∧ visibleCount ts = 1 ∧
      ∀ t ∈ ts, t.getKey "isVisible" = some (.bool true) →
        t.getKey "elementId" = some (.str (detailsIdStr 0))) :=
  ⟨(c2_exclusive_disclosure [jobj [], jobj []] 0 (by decide)).1.2,
   (c2_exclusive_disclosure [jobj [], jobj []] 0 (by decide)).2.1⟩

/-- C7 (amended): when the primary (Bot Framework) channel throws and the
fallback (Graph) channel succeeds, the delivery result names the fallback
method (`method = "graph_api"`) and carries chat/user ids — but the primary
channel's error is NOT included in the success payload: no `bot_error`
field exists there (it appears only in the both-channels-failed response). -/
theorem c7_fallback_success_fields (email uid cid be : String) (card msg : Json) :
    (send_message_to_user_service email (some card) (.ok ()) (some uid) true
        (.error be) (some cid) (.ok msg)).status = 200 ∧
    (send_message_to_user_service email (some card) (.ok ()) (some uid) true
        (.error be) (some cid) (.ok msg)).body.getKey "method" = some (.str "graph_api") ∧
    (send_message_to_user_service email (some card) (.ok ()) (some uid) true
        (.error be) (some cid) (.ok msg)).body.getKey "bot_error" = none ∧
    (send_message_to_user_service email (some card) (.ok ()) (some uid) true
        (.error be) (some cid) (.ok msg)).body.getKey "chat_id" = some (.str cid) ∧
    (send_message_to_user_service email (some card) (.ok ()) (some uid) true
        (.error be) (some cid) (.ok msg)).body.getKey "user_id" = some (.str uid) ∧
    (send_message_to_user_service email (some card) (.ok ()) (some uid) true
        (.error "b") (some cid) (.error "g")).body.getKey "bot_error" = some (.str "b") :=
  ⟨rfl, rfl, rfl, rfl, rfl, rfl⟩

/-- C7 counterexample: the fallback-success result names the method but does
NOT include the primary channel's error in any diagnostic field — the
`bot_error` key is absent — refuting the claim that the successful result
includes the primary error. -/
theorem c7_counterexample :
    (send_message_to_user_service "u@example.com" (some (jobj [])) (.ok ()) (some "uid1") true
        (.error "bot down") (some "chat1")
        (.ok (jobj [("id", jstr "m1")]))).body.getKey "method" = some (.str "graph_api") ∧
    (send_message_to_user_service "u@example.com" (some (jobj [])) (.ok ()) (some "uid1") true
        (.error "bot down") (some "chat1")
        (.ok (jobj [("id", jstr "m1")]))).body.getKey "bot_error" = none :=
  ⟨rfl, rfl⟩

/-- C8 (amended): with both an explicit id and a differing context id, the
update tries the explicit id first and stops at the first success; if both
attempts fail the LAST error (the context id's) propagates; and when the
explicit id fails but the context id succeeds the update succeeds — but the
result's `used_activity_id` still reports the explicit id chosen up front,
not the context id that actually succeeded. -/
theorem c8_update_id_resolution (a r e : String) (attempt : String → Except String Unit)
    (hne : a ≠ r) :
    (attempt a = .ok () →
      update_card_via_bot_framework (some a) (some r) attempt
        = (.ok (jobj
            [("status", jstr "updated"), ("method", jstr "bot_framework"),
             ("activity_id", jstr a), ("used_activity_id", jstr a),
             ("ref_activity_id", jstr r)]), [a])) ∧
    (attempt a = .error e → attempt r = .ok () →
      update_card_via_bot_framework (some a) (some r) attempt
        = (.ok (jobj
            [("status", jstr "updated"), ("method", jstr "bot_framework"),
             ("activity_id", jstr a), ("used_activity_id", jstr a),
             ("ref_activity_id", jstr r)]), [a, r])) ∧
    (∀ e2, attempt a = .error e → attempt r = .error e2 →
      update_card_via_bot_framework (some a) (some r) attempt = (.error e2, [a, r])) := by
  refine ⟨?_, ?_, ?_⟩
  · intro ha
    simp [update_card_via_bot_framework, Option.orElse, hne, updateAttemptLoop, ha]
  · intro ha hr
    simp [update_card_via_bot_framework, Option.orElse, hne, updateAttemptLoop, ha, hr,
      Ne.symm hne]
  · intro e2 ha hr
    simp [update_card_via_bot_framework, Option.orElse, hne, updateAttemptLoop, ha, hr,
      Ne.symm hne]

/-- Witness for C8's amended statement at concrete outcomes. -/
theorem c8_update_id_resolution_witness :
    update_card_via_bot_framework (some "A") (some "B")
        (fun s => if s = "A" then .error "boom" else .ok ())
      = (.ok (jobj
          [("status", jstr "updated"), ("method", jstr "bot_framework"),
           ("activity_id", jstr "A"), ("used_activity_id", jstr "A"),
           ("ref_activity_id", jstr "B")]), ["A", "B"]) :=
  (c8_update_id_resolution "A" "B" "boom"
      (fun s => if s = "A" then .error "boom" else .ok ())
      (by decide)).2.1 (by decide) (by decide)

/-- C8 counterexample: the explicit id "A" fails, the context id "B"
succeeds; the update succeeds — yet `used_activity_id` reports "A", the
explicit id, not the context id "B" the claim says is reported. -/
theorem c8_counterexample :
    ((update_card_via_bot_framework (some "A") (some "B")
        (fun s => if s = "A" then .error "boom" else .ok ())).1
      = .ok (jobj
          [("status", jstr "updated"), ("method", jstr "bot_framework"),
           ("activity_id", jstr "A"), ("used_activity_id", jstr "A"),
           ("ref_activity_id", jstr "B")])) ∧
    (Json.str "A" ≠ Json.str "B") := by
  constructor
  · rfl
  · decide

/-- C10 (amended): the two public `update_card_service` entry points are
behaviorally equivalent WHENEVER at least one of `activity_id`/`chat_id` is
supplied; their bodies are textually identical up to the final return. -/
theorem c10_update_services_agree (cardName : Option String) (updatedCard : Option Json)
    (activityId chatId : Option String) (bf graph : Except String Json)
    (h : activityId.isSome ∨ chatId.isSome) :
    update_card_service_message_service cardName updatedCard activityId chatId bf graph
      = update_card_service_card_update_service cardName updatedCard activityId chatId bf graph := by
  cases updatedCard with
  | none => rfl
  | some card =>
    cases activityId with
    | some aid =>
      cases bf with
      | ok result => rfl
      | error e =>
        cases chatId with
        | none => rfl
        | some cid => cases graph <;> rfl
    | none =>
      cases chatId with
      | some cid => cases graph <;> rfl
      | none =>
        rcases h with h1 | h2
        · cases h1
        · cases h2

/-- Witness for C10's amended equivalence at concrete arguments. -/
theorem c10_update_services_agree_witness :
    update_card_service_message_service none (some (jobj [])) (some "act") none
        (.ok (jobj [("status", jstr "updated")])) (.error "unused")
      = update_card_service_card_update_service none (some (jobj [])) (some "act") none
        (.ok (jobj [("status", jstr "updated")])) (.error "unused") :=
  c10_update_services_agree none (some (jobj [])) (some "act") none
    (.ok (jobj [("status", jstr "updated")])) (.error "unused") (Or.inl rfl)

/-- C10 counterexample: with neither `activity_id` nor `chat_id`, the
message-service copy returns the 400 guidance response while the
card-update-service copy falls off the end and returns `None`. -/
theorem c10_counterexample :
    update_card_service_card_update_service none (some (jobj [])) none none
        (.error "x") (.error "y") = none ∧
    update_card_service_message_service none (some (jobj [])) none none
        (.error "x") (.error "y")
      = some ⟨400, jobj
          [("error", jstr "Provide 'activity_id' (Bot Framework) to replace the existing card, or 'chat_id' (Graph API) to send a new updated message.")]⟩ ∧
    update_card_service_message_service none (some (jobj [])) none none
        (.error "x") (.error "y")
      ≠ update_card_service_card_update_service none (some (jobj [])) none none
        (.error "x") (.error "y") := by
  refine ⟨rfl, rfl, ?_⟩
  intro hcontra
  cases hcontra

theorem takeWhile_append_stop (p : Char → Bool) :
    ∀ (xs : List Char), (∀ c ∈ xs, p c = true) → ∀ (q : Char) (ys : List Char), p q = false →
      List.takeWhile p (xs ++ q :: ys) = xs := by
  intro xs
  induction xs with
  | nil =>
    intro _ q ys hq
    simp [List.takeWhile_cons, hq]
  | cons x xs ih =>
    intro hx q ys hq
    simp only [List.cons_append, List.takeWhile_cons, hx x (by simp), if_true]
    rw [ih (fun c hc => hx c (by simp [hc])) q ys hq]

theorem dropWhile_append_stop (p : Char → Bool) :
    ∀ (xs : List Char), (∀ c ∈ xs, p c = true) → ∀ (q : Char) (ys : List Char), p q = false →
      List.dropWhile p (xs ++ q :: ys) = q :: ys := by
  intro xs
  induction xs with
  | nil =>
    intro _ q ys hq
    simp [List.dropWhile_cons, hq]
  | cons x xs ih =>
    intro hx q ys hq
    simp only [List.cons_append, List.dropWhile_cons, hx x (by simp), if_true]
    exact ih (fun c hc => hx c (by simp [hc])) q ys hq

theorem scanGo_cons_ne (data : Json) (f : Nat) (c : Char) (cs : List Char) (hc : c ≠ '{') :
    scanGo data (f + 1) (c :: cs)
      = match scanGo data f cs with
        | .error e => .error e
        | .ok tail => .ok (c :: tail) := by
  rw [scanGo.eq_def]
  split
  · omega
  · rename_i heq
    cases heq
  · rename_i heq1 heq2
    exfalso
    cases heq2
    exact hc rfl
  · rename_i heq1 heq2
    cases heq2
    injection heq1 with hf
    subst hf
    rfl

theorem scanGo_token (data : Json) (f : Nat) (p rest : List Char)
    (hp : p ≠ []) (hpc : ∀ c ∈ p, c ≠ '}') :
    scanGo data (f + 1) ('{' :: '{' :: (p ++ '}' :: '}' :: rest))
      = match resolvePlaceholder data p with
        | .error e => .error e
        | .ok r =>
          match scanGo data f rest with
          | .error e => .error e
          | .ok tail =>
            .ok ((match r with
                  | some s => s.data
                  | none => '{' :: '{' :: (p ++ ['}', '}'])) ++ tail) := by
  rw [scanGo.eq_def]
  split
  · omega
  · rename_i heq
    cases heq
  · rename_i heq1 heq2
    injection heq2 with h1 h2
    injection h2 with h3 h4
    subst h4
    injection heq1 with hf
    subst hf
    have htake : List.takeWhile (fun c => decide ¬(c = '}')) (p ++ '}' :: '}' :: rest) = p :=
      takeWhile_append_stop _ p (fun c hc => by simp [hpc c hc]) '}' ('}' :: rest) (by simp)
    have hdrop : List.dropWhile (fun c => decide ¬(c = '}')) (p ++ '}' :: '}' :: rest)
        = '}' :: '}' :: rest :=
      dropWhile_append_stop _ p (fun c hc => by simp [hpc c hc]) '}' ('}' :: rest) (by simp)
    simp only [htake, hdrop]
    rw [if_pos ⟨hp, rfl⟩]
    rfl
  · rename_i hno heq1 heq2
    exfalso
    injection heq2 with h1 h2
    exact hno (p ++ '}' :: '}' :: rest) h1.symm h2.symm

theorem scan_append_lit (data : Json) (R : List Char) :
    ∀ (s : List Char), (∀ c ∈ s, c ≠ '{' ∧ c ≠ '}') →
      ∀ (f : Nat) (rest : List Char), s.length + rest.length ≤ f →
      (∀ g, rest.length ≤ g → scanGo data g rest = .ok R) →
      scanGo data f (s ++ rest) = .ok (s ++ R) := by
  intro s
  induction s with
  | nil =>
    intro _ f rest hf hcont
    simpa using hcont f (by omega)
  | cons c s ih =>
    intro hs f rest hf hcont
    simp only [List.length_cons] at hf
    cases f with
    | zero => omega
    | succ k =>
      rw [List.cons_append, scanGo_cons_ne data k c (s ++ rest) (hs c (by simp)).1]
      rw [ih (fun c hc => hs c (by simp [hc])) k rest (by omega) hcont]
      rfl

theorem scan_pieces (data : Json) :
    ∀ (pieces : List TokPiece) (f : Nat),
      (∀ pc ∈ pieces, pieceOk data pc) →
      (pieces.flatMap renderPiece).length ≤ f →
      scanGo data f (pieces.flatMap renderPiece)
        = .ok (pieces.flatMap (resolvedPiece data)) := by
  intro pieces
  induction pieces with
  | nil =>
    intro f _ _
    cases f <;> rfl
  | cons pc ps ih =>
    intro f hok hf
    rw [List.flatMap_cons] at hf ⊢
    cases pc with
    | lit s =>
      have hs : ∀ c ∈ s.data, c ≠ '{' ∧ c ≠ '}' := hok (.lit s) (by simp)
      have hgoal := scan_append_lit data (ps.flatMap (resolvedPiece data)) s.data hs f
        (ps.flatMap renderPiece) (by simpa [renderPiece] using hf)
        (fun g hg => ih g (fun q hq => hok q (by simp [hq])) hg)
      simpa [renderPiece, resolvedPiece] using hgoal
    | tok p =>
      obtain ⟨hne, hbr, herr⟩ := hok (.tok p) (by simp)
      have hshape : renderPiece (.tok p) ++ ps.flatMap renderPiece
          = '{' :: '{' :: (p.data ++ '}' :: '}' :: ps.flatMap renderPiece) := by
        simp [renderPiece]
      rw [hshape] at hf ⊢
      simp only [List.length_cons, List.length_append] at hf
      cases f with
      | zero => omega
      | succ k =>
        rw [scanGo_token data k p.data (ps.flatMap renderPiece)
          (by simpa using hne) (fun c hc => (hbr c hc).2)]
        cases hres : resolvePlaceholder data p.data with
        | error e =>
          cases e
          exact absurd hres herr
        | ok r =>
          rw [ih k (fun q hq => hok q (by simp [hq])) (by omega)]
          cases r with
          | some v => simp [resolvedPiece, hres]
          | none => simp [resolvedPiece, hres]

/-- C5: the placeholder resolver recovers locally from every caught
resolution failure (missing key, wrong type, out-of-range index): scanning a
string made of brace-free literals and `\x7b\x7b...\x7d\x7d` tokens whose
resolution does not raise the uncaught `ValueError`, each token is replaced
independently — a failing token keeps its original text verbatim and every
other token is still resolved, with no abort.  In particular `\x7b\x7ba.b\x7d\x7d`
against `{a: {b: "x"}}` yields `"x"`, and against `{}` stays unchanged
without throwing, both through the string scanner and through the whole
document walk of `populate_placeholders`. -/
theorem c5_resolver_local_failure :
    (∀ (data : Json) (pieces : List TokPiece) (f : Nat),
      (∀ pc ∈ pieces, pieceOk data pc) →
      (pieces.flatMap renderPiece).length ≤ f →
      scanGo data f (pieces.flatMap renderPiece)
        = .ok (pieces.flatMap (resolvedPiece data))) ∧
    pySubPlaceholders (jobj [("a", jobj [("b", jstr "x")])])
        (String.mk ['{', '{', 'a', '.', 'b', '}', '}']) = .ok "x" ∧
    pySubPlaceholders (jobj [])
        (String.mk ['{', '{', 'a', '.', 'b', '}', '}'])
      = .ok (String.mk ['{', '{', 'a', '.', 'b', '}', '}']) ∧
    populate_placeholders (jobj [("t", jstr (String.mk ['{', '{', 'a', '.', 'b', '}', '}']))])
        (jobj [("a", jobj [("b", jstr "x")])])
      = .ok (jobj [("t", jstr "x")]) :=
  ⟨scan_pieces, by decide, by decide, by decide⟩

/-- Witness for C5: a mixed string with one resolvable and one failing token;
the failing token stays verbatim while the other is substituted. -/
theorem c5_resolver_local_failure_witness :
    scanGo (jobj [("a", jobj [("b", jstr "x")])]) 20
      ([TokPiece.tok "a.b", TokPiece.lit "-", TokPiece.tok "zz"].flatMap renderPiece)
      = .ok ([TokPiece.tok "a.b", TokPiece.lit "-", TokPiece.tok "zz"].flatMap
          (resolvedPiece (jobj [("a", jobj [("b", jstr "x")])]))) :=
  c5_resolver_local_failure.1 (jobj [("a", jobj [("b", jstr "x")])])
    [TokPiece.tok "a.b", TokPiece.lit "-", TokPiece.tok "zz"] 20
    (by
      intro pc hpc
      simp only [List.mem_cons, List.not_mem_nil, or_false] at hpc
      rcases hpc with rfl | rfl | rfl
      · exact ⟨by decide, by decide, by decide⟩
      · show ∀ c ∈ ("-" : String).data, c ≠ Char.ofNat 123 ∧ c ≠ Char.ofNat 125
        decide
      · exact ⟨by decide, by decide, by decide⟩)
    (by decide)

/- ### C9 lemma stack -/

theorem hget_append_lt (σ ext : PyHeap) (b : Nat) (h : b < σ.length) :
    (σ ++ ext).get? b = σ.get? b := by
  simp [List.get?_eq_getElem?, List.getElem?_append, h]

theorem hget_append_self (σ : PyHeap) (n : HNode) :
    (σ ++ [n]).get? σ.length = some n := by
  simp [List.get?_eq_getElem?]

theorem hget_set_ne (σ : PyHeap) (i j : Nat) (x : HNode) (h : i ≠ j) :
    (σ.set i x).get? j = σ.get? j := by
  simp [List.get?_eq_getElem?, List.getElem?_set_ne h]

theorem hget_set_self (σ : PyHeap) (i : Nat) (x : HNode) (h : i < σ.length) :
    (σ.set i x).get? i = some x := by
  simp [List.get?_eq_getElem?, List.getElem?_set_self, h]

theorem hget_lt_length {σ : PyHeap} {b : Nat} {n : HNode} (h : σ.get? b = some n) :
    b < σ.length := by
  by_contra hb
  rw [List.get?_eq_getElem?, List.getElem?_eq_none (Nat.le_of_not_lt hb)] at h
  exact Option.noConfusion h

theorem hget_mem {σ : PyHeap} {b : Nat} {n : HNode} (h : σ.get? b = some n) : n ∈ σ :=
  List.get?_mem h

theorem agreeBelow_refl (N : Nat) (σ : PyHeap) : agreeBelow N σ σ := fun _ _ => rfl

theorem agreeBelow_trans {N : Nat} {σ₁ σ₂ σ₃ : PyHeap} (h1 : agreeBelow N σ₁ σ₂)
    (h2 : agreeBelow N σ₂ σ₃) : agreeBelow N σ₁ σ₃ :=
  fun b hb => (h2 b hb).trans (h1 b hb)

theorem agreeBelow_append {N : Nat} {σ : PyHeap} (ext : PyHeap) (hN : N ≤ σ.length) :
    agreeBelow N σ (σ ++ ext) :=
  fun b hb => hget_append_lt σ ext b (lt_of_lt_of_le hb hN)

theorem agreeBelow_set {N : Nat} {σ : PyHeap} {a : Nat} (n : HNode) (ha : N ≤ a) :
    agreeBelow N σ (σ.set a n) :=
  fun b hb => hget_set_ne σ a b n (by omega)

theorem freshOrLeaf_mono {N : Nat} {σ σ' : PyHeap} (hag : agreeBelow N σ σ') {b : Nat}
    (h : freshOrLeaf σ N b) : freshOrLeaf σ' N b := by
  rcases h with h | h
  · exact Or.inl h
  · by_cases hb : N ≤ b
    · exact Or.inl hb
    · exact Or.inr (by unfold agreeBelow at hag; rw [hag b (Nat.lt_of_not_le hb)]; exact h)

theorem goodHeap_append {N : Nat} {σ : PyHeap} {node : HNode} (hN : N ≤ σ.length)
    (hg : goodHeap σ N)
    (hnode : ∀ b ∈ node.childAddrs, freshOrLeaf (σ ++ [node]) N b) :
    goodHeap (σ ++ [node]) N := by
  intro a n hget ha b hb
  rcases Nat.lt_trichotomy a σ.length with hlt | heq | hgt
  · rw [hget_append_lt σ [node] a hlt] at hget
    exact freshOrLeaf_mono (agreeBelow_append [node] hN) (hg a n hget ha b hb)
  · subst heq
    rw [hget_append_self σ node] at hget
    injection hget with hh
    subst hh
    exact hnode b hb
  · have hnone : (σ ++ [node]).get? a = none := by
      rw [List.get?_eq_getElem?]
      apply List.getElem?_eq_none
      simp only [List.length_append, List.length_cons, List.length_nil]
      omega
    rw [hnone] at hget
    exact Option.noConfusion hget

theorem goodHeap_set {N : Nat} {σ : PyHeap} {a : Nat} {node : HNode} (hN : N ≤ σ.length)
    (hg : goodHeap σ N) (ha : N ≤ a)
    (hnode : ∀ b ∈ node.childAddrs, freshOrLeaf (σ.set a node) N b) :
    goodHeap (σ.set a node) N := by
  intro c n hget hc b hb
  by_cases hca : c = a
  · subst hca
    by_cases hlen : c < σ.length
    · rw [hget_set_self σ c node hlen] at hget
      injection hget with hh
      subst hh
      exact hnode b hb
    · have hnone : (σ.set c node).get? c = none := by
        rw [List.get?_eq_getElem?]
        apply List.getElem?_eq_none
        rw [List.length_set]
        omega
      rw [hnone] at hget
      exact Option.noConfusion hget
  · rw [hget_set_ne σ a c node (fun hh => hca hh.symm)] at hget
    exact freshOrLeaf_mono (agreeBelow_set node ha) (hg c n hget hc b hb)

theorem heapSetField_length (σ : PyHeap) (a : Nat) (k : String) (v : Nat) :
    (heapSetField σ a k v).length = σ.length := by
  unfold heapSetField
  split
  · exact List.length_set ..
  · rfl

theorem heapSetField_agree {N : Nat} (σ : PyHeap) (a : Nat) (k : String) (v : Nat)
    (ha : N ≤ a) : agreeBelow N σ (heapSetField σ a k v) := by
  unfold heapSetField
  split
  · exact agreeBelow_set _ ha
  · exact agreeBelow_refl N σ

theorem assocSet_mem : ∀ (fields : List (String × Nat)) (key : String) (w : Nat)
    (kv : String × Nat), kv ∈ assocSet fields key w → kv ∈ fields ∨ kv.2 = w
  | [], key, w, kv, h => by
    simp only [assocSet, List.mem_singleton] at h
    subst h
    exact Or.inr rfl
  | (k, v) :: rest, key, w, kv, h => by
    rw [assocSet] at h
    split at h
    · rcases List.mem_cons.mp h with h | h
      · subst h
        exact Or.inr rfl
      · exact Or.inl (List.mem_cons_of_mem _ h)
    · rcases List.mem_cons.mp h with h | h
      · subst h
        exact Or.inl (List.mem_cons_self _ _)
      · rcases assocSet_mem rest key w kv h with h | h
        · exact Or.inl (List.mem_cons_of_mem _ h)
        · exact Or.inr h

theorem heapSetField_good {N : Nat} {σ : PyHeap} {a : Nat} {k : String} {v : Nat}
    (hN : N ≤ σ.length) (hg : goodHeap σ N) (ha : N ≤ a) (hv : freshOrLeaf σ N v) :
    goodHeap (heapSetField σ a k v) N := by
  unfold heapSetField
  split
  · rename_i fields hget
    apply goodHeap_set hN hg ha
    intro b hb
    apply freshOrLeaf_mono (agreeBelow_set _ ha)
    simp only [HNode.childAddrs] at hb
    rcases List.mem_map.mp hb with ⟨kv, hkv, rfl⟩
    rcases assocSet_mem fields k v kv hkv with h | h
    · exact hg a (.hobj fields) hget ha kv.2
        (by simp only [HNode.childAddrs]; exact List.mem_map.mpr ⟨kv, h, rfl⟩)
    · rw [h]
      exact hv
  · exact hg

theorem goodHeap_initial (σ : PyHeap) : goodHeap σ σ.length := by
  intro a n hget ha
  have := hget_lt_length hget
  omega

theorem rpH_frame (data : Json) : ∀ f : Nat,
    (∀ σ a σ' a', replacePlaceholdersHeap data f σ a = .ok (σ', a') →
      ∀ N, N ≤ σ.length → goodHeap σ N →
        σ.length ≤ σ'.length ∧ (∀ b, b < σ.length → σ'.get? b = σ.get? b) ∧
        goodHeap σ' N ∧ freshOrLeaf σ' N a') ∧
    (∀ σ as σ' as', replacePlaceholdersHeapList data f σ as = .ok (σ', as') →
      ∀ N, N ≤ σ.length → goodHeap σ N →
        σ.length ≤ σ'.length ∧ (∀ b, b < σ.length → σ'.get? b = σ.get? b) ∧
        goodHeap σ' N ∧ ∀ b ∈ as', freshOrLeaf σ' N b) ∧
    (∀ σ fs σ' fs', replacePlaceholdersHeapFields data f σ fs = .ok (σ', fs') →
      ∀ N, N ≤ σ.length → goodHeap σ N →
        σ.length ≤ σ'.length ∧ (∀ b, b < σ.length → σ'.get? b = σ.get? b) ∧
        goodHeap σ' N ∧ ∀ kv ∈ fs', freshOrLeaf σ' N kv.2) := by
  intro f
  induction f with
  | zero =>
    refine ⟨?_, ?_, ?_⟩ <;> intro σ x σ' y h <;>
      simp [replacePlaceholdersHeap, replacePlaceholdersHeapList,
        replacePlaceholdersHeapFields] at h
  | succ f ih =>
    obtain ⟨ih1, ih2, ih3⟩ := ih
    refine ⟨?_, ?_, ?_⟩
    · intro σ a σ' a' h N hN hg
      simp only [replacePlaceholdersHeap] at h
      split at h
      · exact Except.noConfusion h
      · rename_i s hget
        split at h
        · exact Except.noConfusion h
        · rename_i s2 hsub
          rw [Except.ok.injEq, Prod.mk.injEq] at h
          obtain ⟨h1, h2⟩ := h
          subst h1
          subst h2
          refine ⟨by simp, fun b hb => hget_append_lt σ _ b hb, ?_, Or.inl hN⟩
          apply goodHeap_append hN hg
          intro b hb
          simp [HNode.childAddrs] at hb
      · rename_i elems hget
        split at h
        · exact Except.noConfusion h
        · rename_i p hrec
          rw [Except.ok.injEq, Prod.mk.injEq] at h
          obtain ⟨h1, h2⟩ := h
          subst h1
          subst h2
          obtain ⟨hl1, ha1, hg1, hf1⟩ := ih2 σ elems p.1 p.2 hrec N hN hg
          refine ⟨?_, ?_, ?_, Or.inl (le_trans hN hl1)⟩
          · simp only [List.length_append, List.length_cons, List.length_nil]
            omega
          · intro b hb
            rw [hget_append_lt p.1 _ b (lt_of_lt_of_le hb hl1), ha1 b hb]
          · apply goodHeap_append (le_trans hN hl1) hg1
            intro b hb
            simp only [HNode.childAddrs] at hb
            exact freshOrLeaf_mono (agreeBelow_append _ (le_trans hN hl1)) (hf1 b hb)
      · rename_i fields hget
        split at h
        · exact Except.noConfusion h
        · rename_i p hrec
          rw [Except.ok.injEq, Prod.mk.injEq] at h
          obtain ⟨h1, h2⟩ := h
          subst h1
          subst h2
          obtain ⟨hl1, ha1, hg1, hf1⟩ := ih3 σ fields p.1 p.2 hrec N hN hg
          refine ⟨?_, ?_, ?_, Or.inl (le_trans hN hl1)⟩
          · simp only [List.length_append, List.length_cons, List.length_nil]
            omega
          · intro b hb
            rw [hget_append_lt p.1 _ b (lt_of_lt_of_le hb hl1), ha1 b hb]
          · apply goodHeap_append (le_trans hN hl1) hg1
            intro b hb
            simp only [HNode.childAddrs] at hb
            rcases List.mem_map.mp hb with ⟨kv, hkv, rfl⟩
            exact freshOrLeaf_mono (agreeBelow_append _ (le_trans hN hl1)) (hf1 kv hkv)
      · rename_i n hne1 hne2 hne3 hget
        rw [Except.ok.injEq, Prod.mk.injEq] at h
        obtain ⟨h1, h2⟩ := h
        subst h1
        subst h2
        refine ⟨le_refl _, fun b _ => rfl, hg, Or.inr ?_⟩
        rw [hget]
        cases n with
        | hstr s => exact absurd rfl (hne1 s)
        | hnum m => trivial
        | hbool b => trivial
        | hnull => trivial
        | harr elems => exact absurd rfl (hne2 elems)
        | hobj fields => exact absurd rfl (hne3 fields)
    · intro σ as σ' as' h N hN hg
      cases as with
      | nil =>
        simp only [replacePlaceholdersHeapList] at h
        rw [Except.ok.injEq, Prod.mk.injEq] at h
        obtain ⟨h1, h2⟩ := h
        subst h1
        subst h2
        exact ⟨le_refl _, fun b _ => rfl, hg, by simp⟩
      | cons a rest =>
        simp only [replacePlaceholdersHeapList] at h
        split at h
        · exact Except.noConfusion h
        · rename_i p hrec1
          split at h
          · exact Except.noConfusion h
          · rename_i q hrec2
            rw [Except.ok.injEq, Prod.mk.injEq] at h
            obtain ⟨h1, h2⟩ := h
            subst h1
            subst h2
            obtain ⟨hl1, ha1, hg1, hf1⟩ := ih1 σ a p.1 p.2 hrec1 N hN hg
            obtain ⟨hl2, ha2, hg2, hf2⟩ :=
              ih2 p.1 rest q.1 q.2 hrec2 N (le_trans hN hl1) hg1
            refine ⟨le_trans hl1 hl2, ?_, hg2, ?_⟩
            · intro b hb
              rw [ha2 b (lt_of_lt_of_le hb hl1), ha1 b hb]
            · intro b hb
              rcases List.mem_cons.mp hb with hb | hb
              · subst hb
                exact freshOrLeaf_mono
                  (fun c hc => ha2 c (lt_of_lt_of_le hc (le_trans hN hl1))) hf1
              · exact hf2 b hb
    · intro σ fs σ' fs' h N hN hg
      cases fs with
      | nil =>
        simp only [replacePlaceholdersHeapFields] at h
        rw [Except.ok.injEq, Prod.mk.injEq] at h
        obtain ⟨h1, h2⟩ := h
        subst h1
        subst h2
        exact ⟨le_refl _, fun b _ => rfl, hg, by simp⟩
      | cons kv rest =>
        simp only [replacePlaceholdersHeapFields] at h
        split at h
        · exact Except.noConfusion h
        · rename_i p hrec1
          split at h
          · exact Except.noConfusion h
          · rename_i q hrec2
            rw [Except.ok.injEq, Prod.mk.injEq] at h
            obtain ⟨h1, h2⟩ := h
            subst h1
            subst h2
            obtain ⟨hl1, ha1, hg1, hf1⟩ := ih1 σ kv.2 p.1 p.2 hrec1 N hN hg
            obtain ⟨hl2, ha2, hg2, hf2⟩ :=
              ih3 p.1 rest q.1 q.2 hrec2 N (le_trans hN hl1) hg1
            refine ⟨le_trans hl1 hl2, ?_, hg2, ?_⟩
            · intro b hb
              rw [ha2 b (lt_of_lt_of_le hb hl1), ha1 b hb]
            · intro kv2 hkv2
              rcases List.mem_cons.mp hkv2 with hb | hb
              · subst hb
                exact freshOrLeaf_mono
                  (fun c hc => ha2 c (lt_of_lt_of_le hc (le_trans hN hl1))) hf1
              · exact hf2 kv2 hb

theorem riH_frame (fromName toName : String) : ∀ f : Nat,
    (∀ σ a N, N ≤ σ.length → goodHeap σ N → freshOrLeaf σ N a →
      σ.length ≤ (replaceIconNamesHeap fromName toName f σ a).1.length ∧
      agreeBelow N σ (replaceIconNamesHeap fromName toName f σ a).1 ∧
      goodHeap (replaceIconNamesHeap fromName toName f σ a).1 N ∧
      freshOrLeaf (replaceIconNamesHeap fromName toName f σ a).1 N
        (replaceIconNamesHeap fromName toName f σ a).2) ∧
    (∀ σ a fs N, N ≤ σ.length → goodHeap σ N → N ≤ a →
      (∀ kv ∈ fs, freshOrLeaf σ N kv.2) →
      σ.length ≤ (replaceIconNamesHeapLoop fromName toName f σ a fs).length ∧
      agreeBelow N σ (replaceIconNamesHeapLoop fromName toName f σ a fs) ∧
      goodHeap (replaceIconNamesHeapLoop fromName toName f σ a fs) N) ∧
    (∀ σ as N, N ≤ σ.length → goodHeap σ N → (∀ b ∈ as, freshOrLeaf σ N b) →
      σ.length ≤ (replaceIconNamesHeapElems fromName toName f σ as).1.length ∧
      agreeBelow N σ (replaceIconNamesHeapElems fromName toName f σ as).1 ∧
      goodHeap (replaceIconNamesHeapElems fromName toName f σ as).1 N ∧
      ∀ b ∈ (replaceIconNamesHeapElems fromName toName f σ as).2,
        freshOrLeaf (replaceIconNamesHeapElems fromName toName f σ as).1 N b) := by
  intro f
  induction f with
  | zero =>
    refine ⟨?_, ?_, ?_⟩
    · intro σ a N hN hg hfr
      exact ⟨le_refl _, agreeBelow_refl N σ, hg, hfr⟩
    · intro σ a fs N hN hg ha hfs
      exact ⟨le_refl _, agreeBelow_refl N σ, hg⟩
    · intro σ as N hN hg has
      exact ⟨le_refl _, agreeBelow_refl N σ, hg, by simp [replaceIconNamesHeapElems]⟩
  | succ f ih =>
    obtain ⟨ih1, ih2, ih3⟩ := ih
    refine ⟨?_, ?_, ?_⟩
    · intro σ a N hN hg hfr
      simp only [replaceIconNamesHeap]
      cases hget : σ.get? a with
      | none => exact ⟨le_refl _, agreeBelow_refl N σ, hg, hfr⟩
      | some n =>
        cases n with
        | hstr s => exact ⟨le_refl _, agreeBelow_refl N σ, hg, hfr⟩
        | hnum m => exact ⟨le_refl _, agreeBelow_refl N σ, hg, hfr⟩
        | hbool b => exact ⟨le_refl _, agreeBelow_refl N σ, hg, hfr⟩
        | hnull => exact ⟨le_refl _, agreeBelow_refl N σ, hg, hfr⟩
        | harr elems =>
          have ha : N ≤ a := by
            rcases hfr with ha | hleaf
            · exact ha
            · rw [hget] at hleaf
              simp [isLeafNode] at hleaf
          have hch : ∀ b ∈ elems, freshOrLeaf σ N b := by
            intro b hb
            exact hg a (.harr elems) hget ha b (by simpa [HNode.childAddrs] using hb)
          obtain ⟨hl, hag, hgood, hfr'⟩ := ih3 σ elems N hN hg hch
          dsimp only
          refine ⟨?_, ?_, ?_, Or.inl (le_trans hN hl)⟩
          · simp only [List.length_append, List.length_cons, List.length_nil]
            omega
          · exact agreeBelow_trans hag (agreeBelow_append _ (le_trans hN hl))
          · apply goodHeap_append (le_trans hN hl) hgood
            intro b hb
            simp only [HNode.childAddrs] at hb
            exact freshOrLeaf_mono (agreeBelow_append _ (le_trans hN hl)) (hfr' b hb)
        | hobj fields =>
          have ha : N ≤ a := by
            rcases hfr with ha | hleaf
            · exact ha
            · rw [hget] at hleaf
              simp [isLeafNode] at hleaf
          have halen : a < σ.length := hget_lt_length hget
          have hch : ∀ kv ∈ fields, freshOrLeaf σ N kv.2 := by
            intro kv hkv
            exact hg a (.hobj fields) hget ha kv.2
              (by simp only [HNode.childAddrs]; exact List.mem_map.mpr ⟨kv, hkv, rfl⟩)
          dsimp only
          by_cases hm : iconMatchAt σ fields fromName = true
          · rw [if_pos hm]
            dsimp only
            have hag1 : agreeBelow N σ ((σ ++ [HNode.hstr toName]).set a
                (HNode.hobj (assocSet fields "name" σ.length))) :=
              agreeBelow_trans (agreeBelow_append _ hN) (agreeBelow_set _ ha)
            have hlen1 : ((σ ++ [HNode.hstr toName]).set a
                (HNode.hobj (assocSet fields "name" σ.length))).length = σ.length + 1 := by
              simp [List.length_set, List.length_append]
            have hch1 : ∀ kv ∈ assocSet fields "name" σ.length,
                freshOrLeaf ((σ ++ [HNode.hstr toName]).set a
                  (HNode.hobj (assocSet fields "name" σ.length))) N kv.2 := by
              intro kv hkv
              rcases assocSet_mem fields "name" σ.length kv hkv with h | h
              · exact freshOrLeaf_mono hag1 (hch kv h)
              · rw [h]
                exact Or.inl hN
            have hg1 : goodHeap ((σ ++ [HNode.hstr toName]).set a
                (HNode.hobj (assocSet fields "name" σ.length))) N := by
              apply goodHeap_set (le_trans hN (by simp))
                (goodHeap_append hN hg (by intro b hb; simp [HNode.childAddrs] at hb)) ha
              intro b hb
              simp only [HNode.childAddrs] at hb
              rcases List.mem_map.mp hb with ⟨kv, hkv, rfl⟩
              exact hch1 kv hkv
            obtain ⟨hl2, hag2, hg2⟩ := ih2 _ a (assocSet fields "name" σ.length) N
              (by rw [hlen1]; omega) hg1 ha hch1
            refine ⟨?_, agreeBelow_trans hag1 hag2, hg2, Or.inl ha⟩
            rw [hlen1] at hl2
            omega
          · rw [if_neg hm]
            dsimp only
            obtain ⟨hl2, hag2, hg2⟩ := ih2 σ a fields N hN hg ha hch
            exact ⟨hl2, hag2, hg2, Or.inl ha⟩
    · intro σ a fs N hN hg ha hfs
      cases fs with
      | nil => exact ⟨le_refl _, agreeBelow_refl N σ, hg⟩
      | cons kv rest =>
        simp only [replaceIconNamesHeapLoop]
        obtain ⟨hl1, hag1, hg1, hf1⟩ := ih1 σ kv.2 N hN hg (hfs kv (List.mem_cons_self _ _))
        have hagm : agreeBelow N (replaceIconNamesHeap fromName toName f σ kv.2).1
            (heapSetField (replaceIconNamesHeap fromName toName f σ kv.2).1 a kv.1
              (replaceIconNamesHeap fromName toName f σ kv.2).2) :=
          heapSetField_agree _ a kv.1 _ ha
        have hlm : (heapSetField (replaceIconNamesHeap fromName toName f σ kv.2).1 a kv.1
            (replaceIconNamesHeap fromName toName f σ kv.2).2).length
            = (replaceIconNamesHeap fromName toName f σ kv.2).1.length :=
          heapSetField_length _ a kv.1 _
        have hgm : goodHeap (heapSetField (replaceIconNamesHeap fromName toName f σ kv.2).1
            a kv.1 (replaceIconNamesHeap fromName toName f σ kv.2).2) N :=
          heapSetField_good (le_trans hN hl1) hg1 ha hf1
        obtain ⟨hl2, hag2, hg2⟩ := ih2 _ a rest N (by rw [hlm]; exact le_trans hN hl1) hgm ha
          (by
            intro kv2 hkv2
            exact freshOrLeaf_mono (agreeBelow_trans hag1 hagm)
              (hfs kv2 (List.mem_cons_of_mem _ hkv2)))
        refine ⟨?_, agreeBelow_trans (agreeBelow_trans hag1 hagm) hag2, hg2⟩
        rw [hlm] at hl2
        omega
    · intro σ as N hN hg has
      cases as with
      | nil =>
        exact ⟨le_refl _, agreeBelow_refl N σ, hg, by simp [replaceIconNamesHeapElems]⟩
      | cons a rest =>
        simp only [replaceIconNamesHeapElems]
        obtain ⟨hl1, hag1, hg1, hf1⟩ := ih1 σ a N hN hg (has a (List.mem_cons_self _ _))
        obtain ⟨hl2, hag2, hg2, hf2⟩ := ih3 _ rest N (le_trans hN hl1) hg1
          (by
            intro b hb
            exact freshOrLeaf_mono hag1 (has b (List.mem_cons_of_mem _ hb)))
        refine ⟨le_trans hl1 hl2, agreeBelow_trans hag1 hag2, hg2, ?_⟩
        intro b hb
        rcases List.mem_cons.mp hb with hb | hb
        · subst hb
          exact freshOrLeaf_mono hag2 hf1
        · exact hf2 b hb

theorem decode_agree : ∀ g : Nat,
    (∀ σ σ' b, heapClosed σ → agreeBelow σ.length σ σ' → b < σ.length →
      decodeH g σ' b = decodeH g σ b) ∧
    (∀ σ σ' as, heapClosed σ → agreeBelow σ.length σ σ' → (∀ b ∈ as, b < σ.length) →
      decodeHList g σ' as = decodeHList g σ as) ∧
    (∀ σ σ' fs, heapClosed σ → agreeBelow σ.length σ σ' → (∀ kv ∈ fs, kv.2 < σ.length) →
      decodeHFields g σ' fs = decodeHFields g σ fs) := by
  intro g
  induction g with
  | zero =>
    refine ⟨?_, ?_, ?_⟩ <;> intro σ σ' x hc hag hx <;> rfl
  | succ g ih =>
    obtain ⟨ih1, ih2, ih3⟩ := ih
    refine ⟨?_, ?_, ?_⟩
    · intro σ σ' b hc hag hb
      simp only [decodeH]
      rw [hag b hb]
      cases hget : σ.get? b with
      | none => rfl
      | some n =>
        cases n with
        | hstr s => rfl
        | hnum m => rfl
        | hbool b2 => rfl
        | hnull => rfl
        | harr elems =>
          have hch : ∀ c ∈ elems, c < σ.length := by
            intro c hcm
            exact hc _ (hget_mem hget) c (by simpa [HNode.childAddrs] using hcm)
          dsimp only
          rw [ih2 σ σ' elems hc hag hch]
        | hobj fields =>
          have hch : ∀ kv ∈ fields, kv.2 < σ.length := by
            intro kv hkv
            exact hc _ (hget_mem hget) kv.2
              (by simp only [HNode.childAddrs]; exact List.mem_map.mpr ⟨kv, hkv, rfl⟩)
          dsimp only
          rw [ih3 σ σ' fields hc hag hch]
    · intro σ σ' as hc hag has
      cases as with
      | nil => rfl
      | cons a rest =>
        simp only [decodeHList]
        rw [ih1 σ σ' a hc hag (has a (List.mem_cons_self _ _)),
          ih2 σ σ' rest hc hag (fun b hb => has b (List.mem_cons_of_mem _ hb))]
    · intro σ σ' fs hc hag hfs
      cases fs with
      | nil => rfl
      | cons kv rest =>
        simp only [decodeHFields]
        rw [ih1 σ σ' kv.2 hc hag (hfs kv (List.mem_cons_self _ _)),
          ih3 σ σ' rest hc hag (fun kv2 hkv2 => hfs kv2 (List.mem_cons_of_mem _ hkv2))]

/-- C9: the placeholder resolver's frame property over the heap model: whenever
`populate_placeholders` returns a result on a closed store, every address of the
original store is untouched (the two stores agree below the original length), so
the input document re-reads identically at every original root — even though
`replace_icon_names` afterwards mutates nodes in place, those writes land only
in the freshly built region; moreover the returned root is itself fresh or a
shared immutable leaf, i.e. the result is a new tree. -/
theorem c9_resolver_frame (data : Json) (fuel : Nat) (σ σ'' : PyHeap) (a a'' : Nat)
    (hc : heapClosed σ)
    (h : populate_placeholders_heap data fuel σ a = .ok (σ'', a'')) :
    agreeBelow σ.length σ σ'' ∧
    freshOrLeaf σ'' σ.length a'' ∧
    ∀ g b, b < σ.length → decodeH g σ'' b = decodeH g σ b := by
  unfold populate_placeholders_heap at h
  split at h
  · exact Except.noConfusion h
  · rename_i p hrec
    rw [Except.ok.injEq] at h
    have hσ : σ'' = (replaceIconNamesHeap "CheckmarkCircle" "Info" fuel p.1 p.2).1 := by
      rw [h]
    have ha2 : a'' = (replaceIconNamesHeap "CheckmarkCircle" "Info" fuel p.1 p.2).2 := by
      rw [h]
    subst hσ
    subst ha2
    obtain ⟨hl1, ha1, hg1, hf1⟩ :=
      (rpH_frame data fuel).1 σ a p.1 p.2 hrec σ.length (le_refl _) (goodHeap_initial σ)
    obtain ⟨hl2, hag2, hg2, hf2⟩ :=
      (riH_frame "CheckmarkCircle" "Info" fuel).1 p.1 p.2 σ.length hl1 hg1 hf1
    have hagree : agreeBelow σ.length σ
        (replaceIconNamesHeap "CheckmarkCircle" "Info" fuel p.1 p.2).1 :=
      fun b hb => (hag2 b hb).trans (ha1 b hb)
    exact ⟨hagree, hf2, fun g b hb => (decode_agree g).1 σ _ b hc hagree hb⟩

/-- Witness for C9: a two-node store (a placeholder string shared as field `t`
of a dict) is resolved; the original two nodes re-read unchanged at every fuel,
and the returned root 3 is fresh. -/
theorem c9_resolver_frame_witness :
    agreeBelow
      ([HNode.hstr (String.mk ['{', '{', 'a', '}', '}']), HNode.hobj [("t", 0)]] : PyHeap).length
      [HNode.hstr (String.mk ['{', '{', 'a', '}', '}']), HNode.hobj [("t", 0)]]
      [HNode.hstr (String.mk ['{', '{', 'a', '}', '}']), HNode.hobj [("t", 0)],
        HNode.hstr "y", HNode.hobj [("t", 2)]] ∧
    freshOrLeaf
      [HNode.hstr (String.mk ['{', '{', 'a', '}', '}']), HNode.hobj [("t", 0)],
        HNode.hstr "y", HNode.hobj [("t", 2)]]
      ([HNode.hstr (String.mk ['{', '{', 'a', '}', '}']), HNode.hobj [("t", 0)]] : PyHeap).length
      3 ∧
    ∀ g b,
      b < ([HNode.hstr (String.mk ['{', '{', 'a', '}', '}']),
        HNode.hobj [("t", 0)]] : PyHeap).length →
      decodeH g
          [HNode.hstr (String.mk ['{', '{', 'a', '}', '}']), HNode.hobj [("t", 0)],
            HNode.hstr "y", HNode.hobj [("t", 2)]] b
        = decodeH g [HNode.hstr (String.mk ['{', '{', 'a', '}', '}']), HNode.hobj [("t", 0)]] b :=
  c9_resolver_frame (jobj [("a", jstr "y")]) 4
    [HNode.hstr (String.mk ['{', '{', 'a', '}', '}']), HNode.hobj [("t", 0)]]
    [HNode.hstr (String.mk ['{', '{', 'a', '}', '}']), HNode.hobj [("t", 0)],
      HNode.hstr "y", HNode.hobj [("t", 2)]]
    1 3
    (by
      show ∀ n ∈ ([HNode.hstr (String.mk ['{', '{', 'a', '}', '}']),
          HNode.hobj [("t", 0)]] : PyHeap),
        ∀ b ∈ n.childAddrs,
          b < ([HNode.hstr (String.mk ['{', '{', 'a', '}', '}']),
            HNode.hobj [("t", 0)]] : PyHeap).length
      decide)
    (by decide)
